import Mathlib

/-!
Shallow embedding of the core logic of the `edr_explorer` repository
(`edr_explorer/util.py` and `edr_explorer/data.py`): the ISO-8601 interval
expander (`ISO8601Expander`) and the coordinate / query-key combinatorics of
`DataHandler` (key encoding, combination enumeration, coordinate building,
insertion-index construction, and the fetch cache).

Modelling conventions:
* Python strings are Lean `String`s; `str.split` is modelled by `pySplit`
  (same semantics as Python's `split` with an explicit non-empty separator).
* Python exceptions become an explicit `PyErr` value threaded through
  `Except`; the constructor records the Python exception class and its
  message (`" ".join(e.args)` of a single-argument exception is the message).
* Python `dict`s are association lists in insertion order; assignment to an
  existing key overwrites in place (`pyDictInsert`).
* `datetime.datetime` is a proleptic-Gregorian civil timestamp
  (`PyDateTime`), with arithmetic through seconds-since-epoch conversion
  (Howard Hinnant's `days_from_civil` / `civil_from_days` algorithms, which
  agree with Python's `datetime` on its supported range, years 1..9999).
* numpy-specific work that no claim depends on (JSON list -> masked ndarray
  reshaping, sub-array extraction, GeoViews dataset construction, URL
  template formatting, HTTP transport) is abstracted behind the
  `Collaborators` record, mirroring the spec's "external collaborator".
-/

namespace EdrExplorer

/-- Python exception classes raised by the embedded code, with message. -/
inductive PyErr where
  | valueError (msg : String)
  | keyError (msg : String)
  | indexError (msg : String)
  | typeError (msg : String)
  | notImplementedError (msg : String)
  | overflowError (msg : String)
  | unboundLocalError (msg : String)
  deriving DecidableEq, Repr

/-- The message of an exception: `" ".join(e.args)` for the single-argument
exceptions the code raises. -/
def pyErrMsg : PyErr → String
  | .valueError m => m
  | .keyError m => m
  | .indexError m => m
  | .typeError m => m
  | .notImplementedError m => m
  | .overflowError m => m
  | .unboundLocalError m => m

/-- Python scalar values that appear as coordinate points and axis values:
ints, strings, and floats (floats modelled exactly as rationals; no claim
depends on float rounding). -/
inductive PyVal where
  | int (n : Int)
  | str (s : String)
  | float (q : ℚ)
  deriving DecidableEq, Repr

/-- Python `str(v)` for the embedded scalar values. -/
def pyStr : PyVal → String
  | .int n => toString n
  | .str s => s
  | .float q => toString q

/-- Python `==` between embedded scalar values: numbers compare numerically
across int/float, numbers never equal strings. -/
def pyEq : PyVal → PyVal → Bool
  | .int a, .int b => a == b
  | .int a, .float q => (a : ℚ) == q
  | .float q, .int a => q == (a : ℚ)
  | .float a, .float b => a == b
  | .str a, .str b => a == b
  | _, _ => false

/-- Python `s.split(sep)` on character lists, for a one-character
separator: adjacent separators give empty pieces, and the result is never
empty. -/
def pySplitOnChar (sep : Char) : List Char → List (List Char)
  | [] => [[]]
  | c :: rest =>
    match pySplitOnChar sep rest with
    | [] => [[]]
    | h :: t => if c == sep then [] :: h :: t else (c :: h) :: t

/-- Python `s.split(sep)` for a two-character separator (leftmost,
non-overlapping matches). -/
def pySplitOnTwo (a b : Char) : List Char → List (List Char)
  | [] => [[]]
  | [c] => [[c]]
  | c :: d :: rest =>
    if c == a && d == b then [] :: pySplitOnTwo a b rest
    else
      match pySplitOnTwo a b (d :: rest) with
      | [] => [[]]
      | h :: t => (c :: h) :: t

/-- Python `s.split(sep)` on strings.  The embedded code only ever splits
on the one-character separators `/`, `,`, `=`, `T` and the two-character
separator `--`; other separators do not occur. -/
def pySplit (s : String) (sep : String) : List String :=
  match sep.data with
  | [c] => (pySplitOnChar c s.data).map (fun cs => ⟨cs⟩)
  | [a, b] => (pySplitOnTwo a b s.data).map (fun cs => ⟨cs⟩)
  | _ => [s]

/-- Python `sep.join(parts)`. -/
def pyJoin (sep : String) : List String → String
  | [] => ""
  | [x] => x
  | x :: xs => x ++ sep ++ pyJoin sep xs

/-- Python `s.strip(c)` for a one-character strip set: removes that
character from both ends. -/
def pyStripChar (c : Char) (s : String) : String :=
  ⟨((s.data.dropWhile (· == c)).reverse.dropWhile (· == c)).reverse⟩

/-- Value of a list of decimal digit characters. -/
def digitsToNat (cs : List Char) : Nat :=
  cs.foldl (fun acc c => acc * 10 + (c.toNat - 48)) 0

/-- Python `int(s)` on a string: optional sign followed by a non-empty run
of decimal digits (underscore separators and surrounding whitespace are not
modelled; no caller produces them). -/
def pyIntOfString (s : String) : Except PyErr Int :=
  let err : Except PyErr Int :=
    .error (.valueError ("invalid literal for int() with base 10: '" ++ s ++ "'"))
  match s.data with
  | [] => err
  | c :: rest =>
    let (sign, digits) : Int × List Char :=
      if c == '-' then (-1, rest) else if c == '+' then (1, rest) else (1, c :: rest)
    if digits ≠ [] ∧ digits.all Char.isDigit then
      .ok (sign * (digitsToNat digits : Int))
    else err

/-- Python `float(s)` on a string: optional sign, digits, optional decimal
fraction (exponents not modelled; no caller produces them). -/
def pyFloatOfString (s : String) : Except PyErr ℚ :=
  let err : Except PyErr ℚ :=
    .error (.valueError ("could not convert string to float: '" ++ s ++ "'"))
  match s.data with
  | [] => err
  | c :: rest =>
    let (sign, body) : ℚ × List Char :=
      if c == '-' then (-1, rest) else if c == '+' then (1, rest) else (1, c :: rest)
    match pySplitOnChar '.' body with
    | [intPart] =>
      if intPart ≠ [] ∧ intPart.all Char.isDigit then
        .ok (sign * (digitsToNat intPart : ℚ))
      else err
    | [intPart, fracPart] =>
      if (intPart ≠ [] ∨ fracPart ≠ []) ∧ intPart.all Char.isDigit ∧
          fracPart.all Char.isDigit then
        .ok (sign * ((digitsToNat intPart : ℚ) +
          (digitsToNat fracPart : ℚ) / (10 : ℚ) ^ fracPart.length))
      else err
    | _ => err

/-- Python dict assignment `d[k] = v`: overwrite in place if the key exists,
else append (insertion order preserved). -/
def pyDictInsert {α : Type} (d : List (String × α)) (k : String) (v : α) :
    List (String × α) :=
  if d.any (fun kv => kv.1 == k) then
    d.map (fun kv => if kv.1 == k then (k, v) else kv)
  else d ++ [(k, v)]

/-- Build a Python dict from a pair sequence (dict comprehension):
later occurrences of a key overwrite earlier ones. -/
def pyDictOfPairs {α : Type} (l : List (String × α)) : List (String × α) :=
  l.foldl (fun acc kv => pyDictInsert acc kv.1 kv.2) []

/-- Python dict equality `a == b` between two dicts (each key of either side
present in the other with an equal value). -/
def pyDictEq (a b : List (String × String)) : Bool :=
  (a.all fun kv => b.lookup kv.1 == some kv.2) &&
  (b.all fun kv => a.lookup kv.1 == some kv.2)

/-- Python `lst[i]` with `IndexError` on overflow (for non-negative `i`). -/
def pyIndexStr (l : List String) (i : Nat) : Except PyErr String :=
  match l[i]? with
  | some x => .ok x
  | none => .error (.indexError "list index out of range")

/-- Python `lst.index(v)` over scalar values: index of the first element
equal (Python `==`) to `v`, `ValueError` if absent. -/
def pyListIndex (l : List PyVal) (v : PyVal) : Except PyErr Nat :=
  match l.findIdx? (fun x => pyEq x v) with
  | some i => .ok i
  | none => .error (.valueError (pyStr v ++ " is not in list"))

/-- First index of `v` in `l` under Python `==` (callers guarantee
membership; `List.findIdx` returns the length otherwise). -/
def pyIdx (l : List PyVal) (v : PyVal) : Nat :=
  l.findIdx (fun x => pyEq x v)

/-! ### `datetime.datetime` model -/

/-- A `datetime.datetime` value (whole seconds; the code never produces
sub-second values). -/
structure PyDateTime where
  year : Int
  month : Int
  day : Int
  hour : Int
  minute : Int
  second : Int
  deriving DecidableEq, Repr

/-- Shorthand constructor for date-time literals. -/
def mkDT (y m d h mi s : Int) : PyDateTime := ⟨y, m, d, h, mi, s⟩

/-- Is `y` a (proleptic Gregorian) leap year, as Python's calendar has it. -/
def isLeapYear (y : Int) : Bool :=
  y % 4 == 0 && (y % 100 != 0 || y % 400 == 0)

/-- Days in month `m` of year `y` (for `m` in 1..12). -/
def daysInMonth (y m : Int) : Int :=
  if m == 2 then (if isLeapYear y then 29 else 28)
  else if m == 4 || m == 6 || m == 9 || m == 11 then 30
  else 31

/-- Days since 1970-01-01 of the civil date `(y, m, d)`
(Hinnant's `days_from_civil`; agrees with Python `datetime.toordinal`
up to the epoch shift). -/
def daysFromCivil (y m d : Int) : Int :=
  let y := if m ≤ 2 then y - 1 else y
  let era := (if 0 ≤ y then y else y - 399).tdiv 400
  let yoe := y - era * 400
  let mp := (m + 9) % 12
  let doy := (153 * mp + 2).tdiv 5 + d - 1
  let doe := yoe * 365 + yoe.tdiv 4 - yoe.tdiv 100 + doy
  era * 146097 + doe - 719468

/-- Civil date `(y, m, d)` of the day `z` days after 1970-01-01
(Hinnant's `civil_from_days`). -/
def civilFromDays (z : Int) : Int × Int × Int :=
  let z := z + 719468
  let era := (if 0 ≤ z then z else z - 146096).tdiv 146097
  let doe := z - era * 146097
  let yoe := (doe - doe.tdiv 1460 + doe.tdiv 36524 - doe.tdiv 146096).tdiv 365
  let y := yoe + era * 400
  let doy := doe - (365 * yoe + yoe.tdiv 4 - yoe.tdiv 100)
  let mp := (5 * doy + 2).tdiv 153
  let d := doy - (153 * mp + 2).tdiv 5 + 1
  let m := if mp < 10 then mp + 3 else mp - 9
  (if m ≤ 2 then y + 1 else y, m, d)

/-- Seconds since the 1970-01-01T00:00:00 epoch of a `PyDateTime`. -/
def dtToSecs (dt : PyDateTime) : Int :=
  daysFromCivil dt.year dt.month dt.day * 86400 +
    dt.hour * 3600 + dt.minute * 60 + dt.second

/-- The `PyDateTime` at `n` seconds since the epoch. -/
def dtOfSecs (n : Int) : PyDateTime :=
  let days := n.fdiv 86400
  let rem := n - days * 86400
  let ymd := civilFromDays days
  ⟨ymd.1, ymd.2.1, ymd.2.2, rem.tdiv 3600, (rem.tdiv 60) % 60, rem % 60⟩

/-- `datetime.min` / `datetime.max` as epoch seconds: Python restricts
datetimes to years 1..9999 and raises `OverflowError` outside. -/
def dtMinSecs : Int := dtToSecs ⟨1, 1, 1, 0, 0, 0⟩

def dtMaxSecs : Int := dtToSecs ⟨9999, 12, 31, 23, 59, 59⟩

/-- `dt + timedelta(seconds=delta)` with Python's range check. -/
def dtCheckedAdd (dt : PyDateTime) (delta : Int) : Except PyErr PyDateTime :=
  let t := dtToSecs dt + delta
  if t < dtMinSecs || dtMaxSecs < t then
    .error (.overflowError "date value out of range")
  else
    .ok (dtOfSecs t)

/-! ### `datetime.strptime` for the two accepted formats

CPython's `_strptime` compiles each directive to a regex alternation
(`%Y` is exactly four digits; the two-digit fields accept either a valid
two-digit form or a bare single digit) applied case-insensitively, then
validates the date through the `datetime` constructor.  Because every field
here is followed by a non-digit literal, the regex match of each numeric
field is exactly: a maximal digit run of length 2 matching the two-digit
alternatives, or of length 1 matching the single-digit alternative. -/

/-- Match a numeric strptime field: maximal digit run of length 2 accepted
by `ok2`, or length 1 accepted by `ok1`. -/
def matchNumField (ok2 ok1 : Nat → Bool) (cs : List Char) :
    Option (Nat × List Char) :=
  let run := cs.takeWhile Char.isDigit
  let rest := cs.dropWhile Char.isDigit
  if run.length == 2 && ok2 (digitsToNat run) then some (digitsToNat run, rest)
  else if run.length == 1 && ok1 (digitsToNat run) then some (digitsToNat run, rest)
  else none

/-- Match a four-digit `%Y` field. -/
def matchYear4 (cs : List Char) : Option (Nat × List Char) :=
  match cs with
  | a :: b :: c :: d :: rest =>
    if a.isDigit && b.isDigit && c.isDigit && d.isDigit then
      some (digitsToNat [a, b, c, d], rest)
    else none
  | _ => none

/-- Match a literal character, case-insensitively (CPython compiles the
whole format with `re.IGNORECASE`). -/
def matchLit (c : Char) (cs : List Char) : Option (List Char) :=
  match cs with
  | x :: rest => if x.toLower == c.toLower then some rest else none
  | [] => none

def matchMonth : List Char → Option (Nat × List Char) :=
  matchNumField (fun v => 1 ≤ v && v ≤ 12) (fun v => 1 ≤ v && v ≤ 9)

def matchDay : List Char → Option (Nat × List Char) :=
  matchNumField (fun v => 1 ≤ v && v ≤ 31) (fun v => 1 ≤ v && v ≤ 9)

def matchHour : List Char → Option (Nat × List Char) :=
  matchNumField (fun v => v ≤ 23) (fun v => v ≤ 9)

def matchMinute : List Char → Option (Nat × List Char) :=
  matchNumField (fun v => v ≤ 59) (fun v => v ≤ 9)

def matchSecond : List Char → Option (Nat × List Char) :=
  matchNumField (fun v => v ≤ 61) (fun v => v ≤ 9)

/-- Validation done by the `datetime` constructor after the regex match:
year 1..9999 (`%Y` already caps at 9999), a real calendar day, and —
unlike the regex, which admits leap seconds 60 and 61 — seconds 0..59. -/
def validDate (y m d sec : Nat) : Bool :=
  1 ≤ y && 1 ≤ d && (d : Int) ≤ daysInMonth y m && sec ≤ 59

/-- `datetime.strptime(s, "%Y-%m-%dT%H:%MZ")` (`isofmt_short`). -/
def strptimeShort (s : String) : Option PyDateTime := do
  let cs := s.data
  let (y, cs) ← matchYear4 cs
  let cs ← matchLit '-' cs
  let (m, cs) ← matchMonth cs
  let cs ← matchLit '-' cs
  let (d, cs) ← matchDay cs
  let cs ← matchLit 'T' cs
  let (h, cs) ← matchHour cs
  let cs ← matchLit ':' cs
  let (mi, cs) ← matchMinute cs
  let cs ← matchLit 'Z' cs
  if cs = [] && validDate y m d 0 then
    some ⟨y, m, d, h, mi, 0⟩
  else none

/-- `datetime.strptime(s, "%Y-%m-%dT%H:%M:%SZ")` (`isofmt`). -/
def strptimeLong (s : String) : Option PyDateTime := do
  let cs := s.data
  let (y, cs) ← matchYear4 cs
  let cs ← matchLit '-' cs
  let (m, cs) ← matchMonth cs
  let cs ← matchLit '-' cs
  let (d, cs) ← matchDay cs
  let cs ← matchLit 'T' cs
  let (h, cs) ← matchHour cs
  let cs ← matchLit ':' cs
  let (mi, cs) ← matchMinute cs
  let cs ← matchLit ':' cs
  let (sec, cs) ← matchSecond cs
  let cs ← matchLit 'Z' cs
  if cs = [] && validDate y m d sec then
    some ⟨y, m, d, h, mi, sec⟩
  else none

/-! ### `ISO8601Expander` (util.py) -/

/-- The sentinel `"-1"` the expander stores for an element that is not
present (`self.element_not_set`). -/
def elementNotSet : String := "-1"

/-- Classification of one `/`-separated element by its leading character,
as in `_classify_string`'s loop. -/
inductive ElemType where
  | repeatElem
  | durationElem
  | datetimeElem
  deriving DecidableEq, Repr

/-- `element.lower().startswith("r")` -> repeat; `"p"` -> duration;
otherwise date-time candidate.  For these one-character prefixes the test
is on the lowercased first character. -/
def classifyElem (e : String) : ElemType :=
  match e.data with
  | c :: _ =>
    if c.toLower == 'r' then .repeatElem
    else if c.toLower == 'p' then .durationElem
    else .datetimeElem
  | [] => .datetimeElem

/-- `self.iso8601_string.split("/")`, falling back to splitting on `"--"`
when that produced a single element. -/
def pySplitElements (s : String) : List String :=
  let elements := pySplit s "/"
  if elements.length == 1 then pySplit s "--" else elements

/-- The last element of `elements` classified as `ty`, else the sentinel:
the classification loop assigns `self.repeat` / `self.duration` on every
matching element, so a later occurrence overwrites an earlier one. -/
def lastAssign (elements : List String) (ty : ElemType) : String :=
  elements.foldl (fun acc e => if classifyElem e == ty then e else acc)
    elementNotSet

/-- The four string attributes `_classify_string` sets. -/
structure Classified where
  startDate : String
  endDate : String
  duration : String
  repeatStr : String
  deriving DecidableEq, Repr

/-- `ISO8601Expander._classify_string`: split, classify each element,
record repeat/duration elements, and resolve which elements are the start
and end dates from the positions of the date-time candidates.  Date-time
candidates anywhere other than the patterns `[0, 1]`, `[0]` and `[1]`
raise `ValueError("Bad datetime indices.")`. -/
def classifyString (s : String) : Except PyErr Classified :=
  let elements := pySplitElements s
  let types := elements.map classifyElem
  let repeatS := lastAssign elements .repeatElem
  let durationS := lastAssign elements .durationElem
  let dtInds : List Nat :=
    (types.enum.filter (fun p => p.2 == ElemType.datetimeElem)).map (·.1)
  if dtInds = [0, 1] then
    .ok ⟨elements.getD 0 "", elements.getD 1 "", durationS, repeatS⟩
  else if dtInds = [0] then
    .ok ⟨elements.getD 0 "", elementNotSet, durationS, repeatS⟩
  else if dtInds = [1] then
    if types.getD 0 .datetimeElem == .durationElem then
      .ok ⟨elementNotSet, elements.getD 1 "", durationS, repeatS⟩
    else
      -- types[0] == "repeat" (a non-repeat, non-duration element at
      -- position 0 would itself be a date-time candidate, so this branch
      -- is exhaustive)
      .ok ⟨elements.getD 1 "", elementNotSet, durationS, repeatS⟩
  else
    .error (.valueError "Bad datetime indices.")

mutual

/-- The matches of `re.split(r"(\d+[A-Z]{1})", s)[1::2]`: every leftmost,
non-overlapping run of digits immediately followed by one uppercase letter,
as `(int(value), unit_letter)`.  A digit run not followed by an uppercase
letter matches nothing (the regex backtracks through the run and fails). -/
def scanDurationBits : List Char → List (Nat × Char)
  | [] => []
  | c :: rest =>
    if c.isDigit then scanRunBits (c.toNat - 48) rest
    else scanDurationBits rest

def scanRunBits (acc : Nat) : List Char → List (Nat × Char)
  | [] => []
  | u :: rest =>
    if u.isDigit then scanRunBits (acc * 10 + (u.toNat - 48)) rest
    else if 'A' ≤ u && u ≤ 'Z' then (acc, u) :: scanDurationBits rest
    else scanDurationBits rest

end

/-- `ISO8601Expander._get_unit`: map a (lowercased) unit letter to a unit
name, with `M` meaning months in the date part and minutes in the time
part. -/
def getUnit (unitLetter : Char) (dtType : String) : Except PyErr String :=
  let ul := unitLetter.toLower
  if ul == 'y' then .ok "years"
  else if ul == 'm' then
    (if dtType == "date" then .ok "months" else .ok "minutes")
  else if ul == 'd' then .ok "days"
  else if ul == 'h' then .ok "hours"
  else .error (.valueError ("Bad unit letter: '" ++ ul.toString ++ "'"))

/-- `ISO8601Expander._split_duration`: scan the duration body and build the
`{unit: value}` dict (a repeated unit overwrites). -/
def splitDuration (durationStr : String) (datetimeType : String) :
    Except PyErr (List (String × Int)) :=
  (scanDurationBits durationStr.data).foldlM
    (fun bitsDict vu => do
      let unit ← getUnit vu.2 datetimeType
      pure (pyDictInsert bitsDict unit (vu.1 : Int)))
    []

/-- `ISO8601Expander._duration_to_timedelta` as total seconds: years count
as exactly 365 days and months as exactly 30 days; hours and minutes pass
through. -/
def durationToTimedelta (durationBits : List (String × Int)) : Int :=
  let years := (durationBits.lookup "years").getD 0
  let months := (durationBits.lookup "months").getD 0
  let days := (durationBits.lookup "days").getD 0
  let ymdDays := years * 365 + months * 30 + days
  let hours := (durationBits.lookup "hours").getD 0
  let minutes := (durationBits.lookup "minutes").getD 0
  ymdDays * 86400 + hours * 3600 + minutes * 60

/-- Python `dict.update`: apply every assignment of `b` to `a`. -/
def pyDictUpdate {α : Type} (a b : List (String × α)) : List (String × α) :=
  b.foldl (fun acc kv => pyDictInsert acc kv.1 kv.2) a

/-- `ISO8601Expander._handle_duration`: `None` when unset; otherwise strip
`P`, split on `"T"` — the two-variable unpack demands exactly two pieces,
so a duration with no `T` raises the unpack `ValueError` — parse the time
part, merge in the date part when non-empty, and convert to a timedelta. -/
def handleDuration (durationS : String) : Except PyErr (Option Int) :=
  if durationS == elementNotSet then .ok none
  else
    match pySplit (pyStripChar 'P' durationS) "T" with
    | [dateDur, timeDur] => do
      let bits ← splitDuration timeDur "time"
      let bits ←
        if dateDur.length > 0 then do
          let dateBits ← splitDuration dateDur "date"
          pure (pyDictUpdate bits dateBits)
        else pure bits
      pure (some (durationToTimedelta bits))
    | parts =>
      if parts.length < 2 then
        .error (.valueError
          ("not enough values to unpack (expected 2, got " ++
            toString parts.length ++ ")"))
      else
        .error (.valueError "too many values to unpack (expected 2)")

/-- `ISO8601Expander._handle_repeat`: 1 when unset, else `int` of the
element with `R` stripped from both ends. -/
def handleRepeat (repeatS : String) : Except PyErr Int :=
  if repeatS == elementNotSet then .ok 1
  else pyIntOfString (pyStripChar 'R' repeatS)

/-- `ISO8601Expander._handle_datetime`: `None` when unset; otherwise try
the short format, then the long format, each under `try/except
ValueError: pass`, the later success overwriting the earlier.  When both
fail nothing ever assigns `result`, so `return result` raises
`UnboundLocalError`. -/
def handleDatetime (dt : String) : Except PyErr (Option PyDateTime) :=
  if dt == elementNotSet then .ok none
  else
    match strptimeShort dt, strptimeLong dt with
    | _, some d => .ok (some d)
    | some d, none => .ok (some d)
    | none, none =>
      .error (.unboundLocalError
        "cannot access local variable 'result' where it is not associated with a value")

/-- The repeat loop of `_build_datetimes`: starting from the anchor,
`repeat` times add (forward) or subtract (backward) the duration from the
most recent point and append it.  A missing duration would be `None`
arithmetic (`TypeError`); classification makes that unreachable. -/
def buildSeqAux (date : PyDateTime) (dur : Option Int) (backward : Bool) :
    Nat → Except PyErr (List PyDateTime)
  | 0 => .ok []
  | n + 1 => do
    let d ←
      match dur with
      | some d => Except.ok d
      | none =>
        Except.error (.typeError
          "unsupported operand type(s): 'datetime.datetime' and 'NoneType'")
    let newDate ← dtCheckedAdd date (if backward then -d else d)
    let rest ← buildSeqAux newDate dur backward n
    pure (newDate :: rest)

/-- `ISO8601Expander._build_datetimes`, i.e. `expand_interval`: classify,
resolve start/end/repeat/duration (in that evaluation order), then:
a lone start gives `[start]`; a start and an end give `[start, end]`
(whatever repeat/duration resolved to); otherwise seed with the known
anchor, iterate the repeat loop, and reverse when built backward. -/
def buildDatetimes (s : String) : Except PyErr (List PyDateTime) := do
  let c ← classifyString s
  let startDate ← handleDatetime c.startDate
  let endDate ← handleDatetime c.endDate
  let rep ← handleRepeat c.repeatStr
  let duration ← handleDuration c.duration
  match startDate, endDate with
  | some sd, none =>
    match duration with
    | none => pure [sd]
    | some _ => do
      let tail ← buildSeqAux sd duration false rep.toNat
      pure (sd :: tail)
  | some sd, some ed => pure [sd, ed]
  | none, some ed => do
    let tail ← buildSeqAux ed duration true rep.toNat
    pure ((ed :: tail).reverse)
  | none, none => .error (.valueError "Invalid ISO8601 date string.")

/-! ### `DataHandler` (data.py): cache keys -/

/-- `DataHandler.make_key`: `"name=<param>," ++ ",".join(f"{k}={d[k]}" for k
in sorted(d))`. -/
def makeKey (param : String) (coordsDict : List (String × PyVal)) : String :=
  let sortedKeys := List.insertionSort (· ≤ ·) (coordsDict.map (·.1))
  let coordStr := pyJoin ","
    (sortedKeys.map (fun k =>
      k ++ "=" ++ pyStr (((coordsDict.lookup k).getD (.str "")))))
  "name=" ++ param ++ "," ++ coordStr

/-- `DataHandler.from_key`: split on `","`; the head piece's `split("=")[1]`
is the parameter name; every other piece contributes
`{piece.split("=")[0]: piece.split("=")[1]}` (an `IndexError` if a piece
has no `=`). -/
def fromKey (key : String) : Except PyErr (String × List (String × String)) :=
  match pySplit key "," with
  | [] => .error (.indexError "list index out of range")
  | paramPart :: coords => do
    let paramName ← pyIndexStr (pySplit paramPart "=") 1
    let pairs ← coords.mapM (fun c => do
      let k ← pyIndexStr (pySplit c "=") 0
      let v ← pyIndexStr (pySplit c "=") 1
      pure (k, v))
    pure (paramName, pyDictOfPairs pairs)

/-! ### `DataHandler.get_combinations` and iterator exhaustion -/

/-- `itertools.product` of a list of lists, in product order (leftmost
input varies slowest). -/
def listProduct {α : Type} : List (List α) → List (List α)
  | [] => [[]]
  | xs :: rest => xs.flatMap (fun x => (listProduct rest).map (fun t => x :: t))

/-- One combination: a `(parameter, {axis: value})` pair. -/
abbrev Combination := String × List (String × PyVal)

/-- The sequence of pairs yielded by the `itertools.product` iterator that
`DataHandler.get_combinations` returns: the per-axis singleton dicts are
crossed and merged, then crossed with the parameter names. -/
def getCombinationsList (paramNames selectionAxes : List String)
    (coords : List (String × List PyVal)) : List Combination :=
  let coordsValues :=
    selectionAxes.map (fun axis => (axis, (coords.lookup axis).getD []))
  let selectionCoordsKeys :=
    coordsValues.map (fun av => av.2.map (fun i => [(av.1, i)]))
  let allCoordDicts :=
    (listProduct selectionCoordsKeys).map (fun d => d.flatten)
  paramNames.flatMap (fun p => allCoordDicts.map (fun d => (p, d)))

/-- A Python iterator over `α`: the items not yet yielded.
`get_combinations` returns such a one-shot iterator (its docstring says
"a list", but `itertools.product` objects are exhausted by iteration). -/
structure PyIterator (α : Type) where
  rest : List α

/-- Running `filter(pred, it)` to exhaustion (as `build_data_array`'s
`for query in relevant_queries` loop does): yields the matching remaining
items and leaves the underlying iterator empty. -/
def filterConsume {α : Type} (p : α → Bool) (it : PyIterator α) :
    List α × PyIterator α :=
  (it.rest.filter p, ⟨[]⟩)

/-- The per-parameter sequences `get_all_data` actually consumes: the
cached `all_query_keys` iterator is filtered once per parameter name, each
pass exhausting it. -/
def getAllDataPasses (paramNames selectionAxes : List String)
    (coords : List (String × List PyVal)) : List (String × List Combination) :=
  (paramNames.foldl
    (fun acc p =>
      let pass := filterConsume (fun q => q.1 == p) acc.2
      (acc.1 ++ [(p, pass.1)], pass.2))
    ([], ⟨getCombinationsList paramNames selectionAxes coords⟩)).1

/-! ### `DataHandler._build_indexer` -/

/-- A Python `slice`: `slice(None)` or `slice(start, stop)`. -/
inductive PySlice where
  | full
  | slice (start stop : Nat)
  deriving DecidableEq, Repr

/-- `DataHandler._build_indexer` with the parameter's `axisNames` passed
directly (the source reads them from
`data_json["ranges"][param]["axisNames"]`): start from all-full slices,
then for each `(axis, value)` of the combination set position
`axis_names.index(axis)` to the single-element slice at
`coords[axis].index(value)`. -/
def buildIndexer (axisNames : List String)
    (coords : List (String × List PyVal))
    (coordsDict : List (String × PyVal)) : Except PyErr (List PySlice) :=
  coordsDict.foldlM
    (fun indices kv => do
      let pts ←
        match coords.lookup kv.1 with
        | some pts => Except.ok pts
        | none => Except.error (.keyError kv.1)
      let dataIdx ← pyListIndex pts kv.2
      let axisIdx ←
        match axisNames.findIdx? (fun a => a == kv.1) with
        | some i => Except.ok i
        | none =>
          Except.error (.valueError ("'" ++ kv.1 ++ "' is not in list"))
      pure (indices.set axisIdx (PySlice.slice dataIdx (dataIdx + 1))))
    (axisNames.map (fun _ => PySlice.full))

/-! ### `DataHandler._build_coords` -/

/-- A JSON value in an axis description. -/
inductive JVal where
  | int (n : Int)
  | rat (q : ℚ)
  | arr (vs : List PyVal)
  | str (s : String)
  deriving DecidableEq

/-- Numeric coercion of a JSON value for `np.linspace`. -/
def jNum : JVal → Except PyErr ℚ
  | .int n => .ok (n : ℚ)
  | .rat q => .ok q
  | _ => .error (.typeError "unsupported operand type for linspace")

/-- `d[k]` on an axis-description dict. -/
def jGet (d : List (String × JVal)) (k : String) : Except PyErr JVal :=
  match d.lookup k with
  | some v => .ok v
  | none => .error (.keyError k)

/-- `np.linspace(start, stop, num)` over exact rationals: `num` evenly
spaced samples from `start`, with the final sample set to `stop` exactly
(numpy assigns `y[-1] = stop` when `endpoint` holds and `num > 1`). -/
def npLinspace (start stop : ℚ) (num : Int) : Except PyErr (List ℚ) :=
  if num < 0 then
    .error (.valueError "Number of samples must be non-negative")
  else
    .ok ((List.range num.toNat).map (fun (i : Nat) =>
      if 1 < num ∧ (i : Int) == num - 1 then stop
      else start + (i : ℚ) * ((stop - start) / ((num : ℚ) - 1))))

/-- `DataHandler._build_coord_points`:
`np.linspace(d["start"], d["stop"], d["num"])` (`num` must be an
integer). -/
def buildCoordPoints (d : List (String × JVal)) : Except PyErr (List ℚ) := do
  let start ← jGet d "start" >>= jNum
  let stop ← jGet d "stop" >>= jNum
  let num ←
    match ← jGet d "num" with
    | .int n => Except.ok n
    | _ => Except.error (.typeError "'num' cannot be interpreted as an integer")
  npLinspace start stop num

/-- `DataHandler._build_coords` over `data_json["domain"]["axes"]`: per
axis, a description carrying `start` becomes a linspace array (of floats),
else one carrying `values` is used verbatim, else
`KeyError(f"Could not build coordinate from keys: {bad_keys!r}.")`. -/
def buildCoords (coordsData : List (String × List (String × JVal))) :
    Except PyErr (List (String × List PyVal)) :=
  coordsData.foldlM
    (fun coords axisEntry => do
      let coordData := axisEntry.2
      let axisKeys := coordData.map (·.1)
      let coordPoints ←
        if axisKeys.contains "start" then
          match buildCoordPoints coordData with
          | .ok qs => Except.ok (qs.map PyVal.float)
          | .error e => Except.error e
        else if axisKeys.contains "values" then
          match coordData.lookup "values" with
          | some (.arr vs) => Except.ok vs
          | some _ => Except.error (.typeError "argument is not iterable")
          | none => Except.error (.keyError "values")
        else
          Except.error (.keyError
            ("Could not build coordinate from keys: '" ++
              pyJoin ", " axisKeys ++ "'."))
      pure (pyDictInsert coords axisEntry.1 coordPoints))
    []

/-! ### `DataHandler.get_item` / `_request_data` / `__getitem__`

The per-session mutable state is the cache dict, the `errors` attribute and
(for the claims about fetch counting) the number of `get_request` calls
made.  The HTTP layer, the JSON-list-to-masked-ndarray reshaping
(`_json_list_to_nd_array`), sub-array extraction (`a[indices].squeeze()`),
URL template formatting and GeoViews construction are third-party /
I/O work outside the core and are abstracted as the `Collaborators`
record over an abstract array type `β`; none of the claims depend on their
values, only on how `get_item` routes them. -/

/-- The `(response, status_code, errors)` triple `util.get_request`
returns, with the response JSON already reshaped to the abstract array. -/
structure FetchResult (β : Type) where
  response : Option β
  statusCode : Option Int
  errors : Option String

/-- The external collaborators of `DataHandler`. -/
structure Collaborators (β : Type) where
  /-- `get_request` on a URL (deterministic within a session). -/
  getRequest : String → FetchResult β
  /-- `_build_geoviews(result, param_name)` (it can raise, e.g. when the
  array is `None` after a failed fetch). -/
  buildGV : Option β → String → Except PyErr β
  /-- `a[indices].squeeze()`. -/
  indexSqueeze : β → List PySlice → β

/-- The static `data_json["ranges"][param]` fields `get_item` and
`_request_data` read. -/
structure RangeInfo where
  ptype : String
  urlTemplate : String
  axisNames : List String
  deriving DecidableEq, Repr

/-- The immutable per-session data of a `DataHandler`. -/
structure DHData (β : Type) where
  ranges : List (String × RangeInfo)
  coords : List (String × List PyVal)
  /-- `self.array`: per-parameter inline value arrays, when
  `data_json["ranges"][param]["values"]` was present. -/
  arrayData : List (String × β)

/-- The mutable per-session state: the cache dict (whose stored value may
be `None` after a failed fetch), the `errors` attribute, and the number of
`get_request` calls made so far. -/
structure DHState (β : Type) where
  cache : List (String × Option β)
  errors : Option String
  fetchCount : Nat

/-- `type(target)(v)`: cast `v` to the runtime type of `target` (the first
element of the axis's coordinate array), as `_request_data`'s
template-building loop does. -/
def castToTypeOf (target v : PyVal) : Except PyErr PyVal :=
  match target with
  | .int _ =>
    match v with
    | .int n => .ok (.int n)
    | .str s => (pyIntOfString s).map .int
    | .float q => .ok (.int (q.num.tdiv q.den))
  | .float _ =>
    match v with
    | .int n => .ok (.float (n : ℚ))
    | .float q => .ok (.float q)
    | .str s => (pyFloatOfString s).map .float
  | .str _ => .ok (.str (pyStr v))

/-- The `template_dict` loop of `_request_data`: for each `(k, v)` of the
combination, cast `v` to the type of `coords[k][0]` and store
`coords[k].index(cast(v))`. -/
def templateBuild (coords : List (String × List PyVal))
    (coordsDict : List (String × PyVal)) : Except PyErr (List (String × Nat)) :=
  coordsDict.foldlM
    (fun acc kv => do
      let pts ←
        match coords.lookup kv.1 with
        | some pts => Except.ok pts
        | none => Except.error (.keyError kv.1)
      let first ←
        match pts.head? with
        | some f => Except.ok f
        | none => Except.error (.indexError "list index out of range")
      let casted ← castToTypeOf first kv.2
      let idx ← pyListIndex pts casted
      pure (pyDictInsert acc kv.1 idx))
    []

/-- `f" ({status_code})"` appended to a fetch error when a status code is
present. -/
def statusSuffix : Option Int → String
  | some c => " (" ++ toString c ++ ")"
  | none => ""

/-- `DataHandler._request_data` (with `urlFormat` standing for
`url_template.format(**template_dict)`): reset `errors`, build the index
template, issue the request, convert a `TiledNdArray` response into the
array when the request reported no errors (any other parameter type raises
`NotImplementedError`), and record reported errors (with status suffix) in
`errors`.  Returns the array or `None`. -/
def requestData {β : Type} (co : Collaborators β) (dh : DHData β)
    (urlFormat : String → List (String × Nat) → String)
    (param : String) (coordsDict : List (String × PyVal)) (s : DHState β) :
    Except PyErr (Option β) × DHState β :=
  let s := { s with errors := none }
  match dh.ranges.lookup param with
  | none => (.error (.keyError param), s)
  | some paramInfo =>
    match templateBuild dh.coords coordsDict with
    | .error e => (.error e, s)
    | .ok templateDict =>
      let url := urlFormat paramInfo.urlTemplate templateDict
      let fr := co.getRequest url
      let s := { s with fetchCount := s.fetchCount + 1 }
      match fr.response with
      | some r =>
        if paramInfo.ptype == "TiledNdArray" then
          let array := if fr.errors == none then some r else none
          match fr.errors with
          | some e =>
            (.ok array, { s with errors := some (e ++ statusSuffix fr.statusCode) })
          | none => (.ok array, s)
        else
          (.error (.notImplementedError
            ("Cannot process parameter type '" ++ paramInfo.ptype ++ "'")), s)
      | none =>
        match fr.errors with
        | some e =>
          (.ok none, { s with errors := some (e ++ statusSuffix fr.statusCode) })
        | none => (.ok none, s)

/-- `DataHandler.get_item`: inline-array path when `self.array` has the
parameter; else a cache hit when the stored entry is not `None`; else
`_request_data`, whose result (even `None`) is stored in the cache — but an
exception inside `_request_data` propagates before the cache assignment
runs.  With `dataset` set the result is wrapped by `_build_geoviews`. -/
def getItem {β : Type} (co : Collaborators β) (dh : DHData β)
    (urlFormat : String → List (String × Nat) → String)
    (param : String) (coordsDict : List (String × PyVal)) (dataset : Bool)
    (s : DHState β) : Except PyErr (Option β) × DHState β :=
  let key := makeKey param coordsDict
  let step :=
    match dh.arrayData.lookup param with
    | some a =>
      match dh.ranges.lookup param with
      | none => (Except.error (PyErr.keyError param), s)
      | some paramInfo =>
        match buildIndexer paramInfo.axisNames dh.coords coordsDict with
        | .error e => (Except.error e, s)
        | .ok indices => (Except.ok (some (co.indexSqueeze a indices)), s)
    | none =>
      match s.cache.lookup key with
      | some (some cached) => (Except.ok (some cached), s)
      | _ =>
        match requestData co dh urlFormat param coordsDict s with
        | (.error e, s₁) => (Except.error e, s₁)
        | (.ok result, s₁) =>
          (Except.ok result, { s₁ with cache := pyDictInsert s₁.cache key result })
  match step with
  | (.error e, s₁) => (.error e, s₁)
  | (.ok result, s₁) =>
    if dataset then
      match co.buildGV result param with
      | .error e => (.error e, s₁)
      | .ok ds => (.ok (some ds), s₁)
    else (.ok result, s₁)

/-- Two successive `get_item` calls for the same combination:
`(first result, second result, final state)`. -/
def getItemTwice {β : Type} (co : Collaborators β) (dh : DHData β)
    (urlFormat : String → List (String × Nat) → String)
    (param : String) (coordsDict : List (String × PyVal)) (dataset : Bool)
    (s : DHState β) :
    Except PyErr (Option β) × Except PyErr (Option β) × DHState β :=
  let r₁ := getItem co dh urlFormat param coordsDict dataset s
  let r₂ := getItem co dh urlFormat param coordsDict dataset r₁.2
  (r₁.1, r₂.1, r₂.2)

/-- `DataHandler.__getitem__`: non-string keys raise `KeyError`;
`from_key` failures propagate (they are outside the `try`); the combination
dict decoded from the key (whose values are strings) is passed to
`get_item` (with its default `dataset=True`) under
`try/except Exception as e`, which stores `" ".join(e.args)` in
`self.errors` and yields `None`; and a non-raising retrieval still yields
`None` when `self.errors` was set. -/
def dunderGetitem {β : Type} (co : Collaborators β) (dh : DHData β)
    (urlFormat : String → List (String × Nat) → String)
    (key : PyVal) (s : DHState β) : Except PyErr (Option β) × DHState β :=
  match key with
  | .str k =>
    match fromKey k with
    | .error e => (.error e, s)
    | .ok (param, coords) =>
      let coordsDict := coords.map (fun kv => (kv.1, PyVal.str kv.2))
      match getItem co dh urlFormat param coordsDict true s with
      | (.error e, s₁) => (.ok none, { s₁ with errors := some (pyErrMsg e) })
      | (.ok result, s₁) =>
        if s₁.errors.isSome then (.ok none, s₁) else (.ok result, s₁)
  | _ =>
    (.error (.keyError
      ("Key must be a string defining data parameter name and coord values.\n" ++
        "Generate a key using DataHandler.make_key().")), s)

/-! ## Theorems for the claims -/

/-- C1: the claim says the combination sequence is safely re-enumerable, a
fresh pass (as performed once per parameter by `get_all_data`) yielding the
identical sequence.  The code caches the one-shot `itertools.product`
iterator in `all_query_keys`, and `get_all_data`'s first per-parameter
filter pass exhausts it: at a data set with parameters `a`, `b` and one
selection point, parameter `b`'s pass consumes the empty sequence although
the combination sequence does contain `b`'s combination. -/
theorem c1_get_all_data_exhausts_iterator :
    getAllDataPasses ["a", "b"] ["t"] [("t", [PyVal.int 1])] =
      [("a", [("a", [("t", PyVal.int 1)])]), ("b", [])] ∧
    getCombinationsList ["a", "b"] ["t"] [("t", [PyVal.int 1])] =
      [("a", [("t", PyVal.int 1)]), ("b", [("t", PyVal.int 1)])] := by
  constructor <;> rfl

/-- C2 (counterexample): `expand_interval("P1D/R1/2020-01-03T00:00Z")` does
not succeed: the only date-time candidate sits at element position 2, which
matches none of the recognized index patterns `[0,1]`, `[0]`, `[1]`, so
classification raises `ValueError("Bad datetime indices.")`. -/
theorem c2_datetime_at_position_two_fails :
    buildDatetimes "P1D/R1/2020-01-03T00:00Z" =
      .error (.valueError "Bad datetime indices.") := by
  rfl

/-- C2 (amended): with the duration at position 0 and the date-time at
position 1 — and the one-day duration spelled `P1DT0H`, since a duration
without a `T` section fails to parse (see C3) — expansion succeeds via
backward construction anchored at the end date, and the backward-built
sequence is reversed, giving the ascending two-point sequence
`[2020-01-02T00:00:00Z, 2020-01-03T00:00:00Z]`. -/
theorem c2_backward_expansion_ascending :
    buildDatetimes "P1DT0H/2020-01-03T00:00Z/R1" =
      .ok [mkDT 2020 1 2 0 0 0, mkDT 2020 1 3 0 0 0] := by
  rfl

/-- C3: the claim says `expand_interval("2020-01-01T00:00Z/P1D/R2")`
succeeds because the time part of a duration is optional.  In the code,
`_handle_duration` unpacks `self.duration.strip("P").split("T")` into
exactly two variables, so the pure date duration `P1D` (no `T` section)
raises `ValueError("not enough values to unpack (expected 2, got 1)")`
instead of yielding the three-point sequence. -/
theorem c3_pure_date_duration_crashes :
    buildDatetimes "2020-01-01T00:00Z/P1D/R2" =
      .error (.valueError "not enough values to unpack (expected 2, got 1)") := by
  rfl

/-- C9 (counterexample): with explicit start and end date-times, an
accompanying duration element is not ignored entirely: it is still parsed
(before the start/end branch is chosen), so a malformed duration such as
`PT1X` makes the whole expansion fail instead of returning
`[start, end]`. -/
theorem c9_duration_not_ignored_when_malformed :
    buildDatetimes "2020-01-01T00:00Z/2020-01-02T00:00Z/PT1X" =
      .error (.valueError "Bad unit letter: 'x'") := by
  rfl

/-- The `UnboundLocalError` message CPython raises when `_handle_datetime`
returns its never-assigned `result`. -/
def unboundResultMsg : String :=
  "cannot access local variable 'result' where it is not associated with a value"

lemma handleDatetime_error_of_unparseable (dt : String)
    (hne : dt ≠ elementNotSet) (hs : strptimeShort dt = none)
    (hl : strptimeLong dt = none) :
    handleDatetime dt = .error (.unboundLocalError unboundResultMsg) := by
  simp [handleDatetime, hne, hs, hl, unboundResultMsg]

lemma handleDatetime_ok_or_unbound (dt : String) :
    (∃ o, handleDatetime dt = .ok o) ∨
      handleDatetime dt = .error (.unboundLocalError unboundResultMsg) := by
  by_cases h : dt = elementNotSet
  · exact Or.inl ⟨none, by simp [handleDatetime, h]⟩
  · cases hs : strptimeShort dt with
    | none =>
      cases hl : strptimeLong dt with
      | none => exact Or.inr (handleDatetime_error_of_unparseable dt h hs hl)
      | some v => exact Or.inl ⟨some v, by simp [handleDatetime, h, hs, hl]⟩
    | some v =>
      cases hl : strptimeLong dt with
      | none => exact Or.inl ⟨some v, by simp [handleDatetime, h, hs, hl]⟩
      | some w => exact Or.inl ⟨some w, by simp [handleDatetime, h, hs, hl]⟩

/-- C4: whenever classification assigns a start or end date-time element
that matches neither of the two accepted literal formats, expansion fails
synchronously.  (The concrete Python exception is the `UnboundLocalError`
from `_handle_datetime`'s never-assigned `result`; the spec's error
taxonomy names this failure `DateTimeParseError`.) -/
theorem c4_unparseable_datetime_fails (s : String) (c : Classified)
    (hc : classifyString s = .ok c)
    (hbad :
      (c.startDate ≠ elementNotSet ∧ strptimeShort c.startDate = none ∧
        strptimeLong c.startDate = none) ∨
      (c.endDate ≠ elementNotSet ∧ strptimeShort c.endDate = none ∧
        strptimeLong c.endDate = none)) :
    buildDatetimes s = .error (.unboundLocalError unboundResultMsg) := by
  unfold buildDatetimes
  rw [hc]
  simp only [Bind.bind, Except.bind]
  rcases hbad with ⟨hne, hs, hl⟩ | ⟨hne, hs, hl⟩
  · rw [handleDatetime_error_of_unparseable c.startDate hne hs hl]
  · rcases handleDatetime_ok_or_unbound c.startDate with ⟨o, ho⟩ | ho
    · rw [ho, handleDatetime_error_of_unparseable c.endDate hne hs hl]
    · rw [ho]

/-- C4 witness: the single-element interval string `"garbage"` classifies
its element as the start date, the element parses under neither format, and
expansion fails. -/
theorem c4_witness :
    buildDatetimes "garbage" = .error (.unboundLocalError unboundResultMsg) :=
  c4_unparseable_datetime_fails "garbage"
    ⟨"garbage", elementNotSet, elementNotSet, elementNotSet⟩ rfl
    (Or.inl ⟨by decide, rfl, rfl⟩)

lemma enumFrom_filter_not_datetime (ts : List ElemType) (n : Nat)
    (h : ∀ t ∈ ts, t ≠ ElemType.datetimeElem) :
    (ts.enumFrom n).filter (fun p => p.2 == ElemType.datetimeElem) = [] := by
  induction ts generalizing n with
  | nil => rfl
  | cons t ts ih =>
    have ht : (t == ElemType.datetimeElem) = false := by
      simpa using h t (List.mem_cons_self t ts)
    simp only [List.enumFrom_cons, List.filter_cons, ht, Bool.false_eq_true,
      if_false]
    exact ih (n + 1) (fun u hu => h u (List.mem_cons_of_mem _ hu))

lemma classifyString_of_two_datetimes (s : String) (e0 e1 : String)
    (rest : List String) (hsplit : pySplitElements s = e0 :: e1 :: rest)
    (h0 : classifyElem e0 = .datetimeElem)
    (h1 : classifyElem e1 = .datetimeElem)
    (hrest : ∀ e ∈ rest, classifyElem e ≠ .datetimeElem) :
    classifyString s =
      .ok ⟨e0, e1, lastAssign (e0 :: e1 :: rest) .durationElem,
        lastAssign (e0 :: e1 :: rest) .repeatElem⟩ := by
  have htail :
      ((rest.map classifyElem).enumFrom 2).filter
        (fun p => p.2 == ElemType.datetimeElem) = [] :=
    enumFrom_filter_not_datetime _ 2
      (fun t ht => by
        rcases List.mem_map.mp ht with ⟨e, he, rfl⟩
        exact hrest e he)
  unfold classifyString
  rw [hsplit]
  simp [List.enum_cons, List.enumFrom_cons, h0, h1, htail]

/-- C9 (amended): when element positions 0 and 1 both classify as
date-time literals (and the remaining elements classify as duration or
repeat markers), and the start, end, repeat and duration elements all
parse, the expansion result is exactly `[start, end]` — the parsed repeat
and duration values are unused.  (Their *parsing* is not skipped, which is
what the counterexample exhibits.) -/
theorem c9_explicit_pair_wins (s : String) (e0 e1 : String)
    (rest : List String) (d0 d1 : PyDateTime) (rv : Int) (dv : Option Int)
    (hsplit : pySplitElements s = e0 :: e1 :: rest)
    (h0 : classifyElem e0 = .datetimeElem)
    (h1 : classifyElem e1 = .datetimeElem)
    (hrest : ∀ e ∈ rest, classifyElem e ≠ .datetimeElem)
    (hp0 : handleDatetime e0 = .ok (some d0))
    (hp1 : handleDatetime e1 = .ok (some d1))
    (hr : handleRepeat (lastAssign (e0 :: e1 :: rest) .repeatElem) = .ok rv)
    (hd : handleDuration (lastAssign (e0 :: e1 :: rest) .durationElem) = .ok dv) :
    buildDatetimes s = .ok [d0, d1] := by
  unfold buildDatetimes
  rw [classifyString_of_two_datetimes s e0 e1 rest hsplit h0 h1 hrest]
  simp only [Bind.bind, Except.bind]
  rw [hp0, hp1, hr, hd]
  rfl

/-- C9 witness: an explicit start/end pair accompanied by a (well-formed)
repeat element `R3` expands to exactly the two points, the repeat value
being ignored. -/
theorem c9_witness :
    buildDatetimes "2020-01-01T00:00Z/2020-01-02T00:00Z/R3" =
      .ok [mkDT 2020 1 1 0 0 0, mkDT 2020 1 2 0 0 0] :=
  c9_explicit_pair_wins "2020-01-01T00:00Z/2020-01-02T00:00Z/R3"
    "2020-01-01T00:00Z" "2020-01-02T00:00Z" ["R3"]
    (mkDT 2020 1 1 0 0 0) (mkDT 2020 1 2 0 0 0) 3 none
    rfl rfl rfl (by decide) rfl rfl rfl rfl

/-! ### Helper lemmas for the key round-trip (C5) -/

lemma data_append (a b : String) : (a ++ b).data = a.data ++ b.data := rfl

lemma mk_data (s : String) : (⟨s.data⟩ : String) = s := rfl

lemma pySplitOnChar_nil (sep : Char) : pySplitOnChar sep [] = [[]] := rfl

lemma pySplitOnChar_ne_nil (sep : Char) (l : List Char) :
    pySplitOnChar sep l ≠ [] := by
  cases l with
  | nil => simp [pySplitOnChar]
  | cons c rest =>
    simp only [pySplitOnChar]
    rcases h : pySplitOnChar sep rest with _ | ⟨h₁, t⟩ <;> simp
    split <;> simp

lemma pySplitOnChar_cons_ne (sep c : Char) (l : List Char)
    (hc : (c == sep) = false) :
    pySplitOnChar sep (c :: l) =
      (c :: (pySplitOnChar sep l).headD []) :: (pySplitOnChar sep l).tail := by
  rcases hl : pySplitOnChar sep l with _ | ⟨h₁, t⟩
  · exact absurd hl (pySplitOnChar_ne_nil sep l)
  · simp [pySplitOnChar, hl, hc]

lemma pySplitOnChar_cons_sep (sep c : Char) (l : List Char)
    (hc : (c == sep) = true) :
    pySplitOnChar sep (c :: l) = [] :: pySplitOnChar sep l := by
  rcases hl : pySplitOnChar sep l with _ | ⟨h₁, t⟩
  · exact absurd hl (pySplitOnChar_ne_nil sep l)
  · simp [pySplitOnChar, hl, hc]

lemma pySplitOnChar_no_sep (sep : Char) (l : List Char) (h : sep ∉ l) :
    pySplitOnChar sep l = [l] := by
  induction l with
  | nil => rfl
  | cons c rest ih =>
    have hc : (c == sep) = false :=
      beq_eq_false_iff_ne.mpr (fun he => h (List.mem_cons.mpr (Or.inl he.symm)))
    have hr : pySplitOnChar sep rest = [rest] :=
      ih (fun hm => h (List.mem_cons_of_mem _ hm))
    rw [pySplitOnChar_cons_ne sep c rest hc, hr]
    rfl

lemma pySplitOnChar_append (sep : Char) (a b : List Char) (h : sep ∉ a) :
    pySplitOnChar sep (a ++ sep :: b) = a :: pySplitOnChar sep b := by
  induction a with
  | nil =>
    exact pySplitOnChar_cons_sep sep sep b (by simp)
  | cons c rest ih =>
    have hc : (c == sep) = false :=
      beq_eq_false_iff_ne.mpr (fun he => h (List.mem_cons.mpr (Or.inl he.symm)))
    have hr := ih (fun hm => h (List.mem_cons_of_mem _ hm))
    rw [List.cons_append, pySplitOnChar_cons_ne sep c _ hc, hr]
    rfl

lemma pyJoin_comma_split (segs : List String) (hne : segs ≠ [])
    (h : ∀ seg ∈ segs, ',' ∉ seg.data) :
    pySplitOnChar ',' (pyJoin "," segs).data = segs.map (·.data) := by
  induction segs with
  | nil => exact absurd rfl hne
  | cons x xs ih =>
    cases xs with
    | nil =>
      simpa [pyJoin] using
        pySplitOnChar_no_sep ',' x.data (h x (List.mem_cons_self x []))
    | cons y ys =>
      have hx : ',' ∉ x.data := h x (List.mem_cons_self _ _)
      have hrest := ih (List.cons_ne_nil y ys)
        (fun seg hseg => h seg (List.mem_cons_of_mem _ hseg))
      have hdata : (x ++ "," ++ pyJoin "," (y :: ys)).data =
          x.data ++ ',' :: (pyJoin "," (y :: ys)).data := by
        simp [data_append]
      rw [show pyJoin "," (x :: y :: ys) = x ++ "," ++ pyJoin "," (y :: ys)
          from rfl,
        hdata, pySplitOnChar_append ',' _ _ hx, hrest]
      rfl

lemma mapM_ok {α β : Type} (f : α → Except PyErr β) (g : α → β)
    (l : List α) (h : ∀ x ∈ l, f x = .ok (g x)) :
    l.mapM f = .ok (l.map g) := by
  induction l with
  | nil => rfl
  | cons x xs ih =>
    rw [List.mapM_cons, h x (List.mem_cons_self _ _),
      ih (fun y hy => h y (List.mem_cons_of_mem _ hy))]
    rfl

lemma pyDictInsert_fresh {α : Type} (acc : List (String × α)) (k : String)
    (v : α) (h : k ∉ acc.map (·.1)) :
    pyDictInsert acc k v = acc ++ [(k, v)] := by
  have : acc.any (fun kv => kv.1 == k) = false := by
    rw [List.any_eq_false]
    intro kv hkv
    simp only [Bool.not_eq_true]
    exact beq_eq_false_iff_ne.mpr
      (fun heq => h (List.mem_map.mpr ⟨kv, hkv, heq⟩))
  simp [pyDictInsert, this]

lemma pyDictOfPairs_foldl {α : Type} (l acc : List (String × α))
    (hnodup : (l.map (·.1)).Nodup)
    (hdisj : ∀ k ∈ l.map (·.1), k ∉ acc.map (·.1)) :
    l.foldl (fun acc kv => pyDictInsert acc kv.1 kv.2) acc = acc ++ l := by
  induction l generalizing acc with
  | nil => simp
  | cons kv l ih =>
    have hk : kv.1 ∉ acc.map (·.1) :=
      hdisj kv.1 (by simp)
    rw [List.foldl_cons, pyDictInsert_fresh acc kv.1 kv.2 hk]
    rw [ih (acc ++ [(kv.1, kv.2)])
      (by simpa using hnodup.of_cons)
      (by
        intro k hkl
        simp only [List.map_append, List.mem_append] at hkl ⊢
        push_neg
        constructor
        · exact hdisj k (by simp [hkl])
        · simp only [List.map_cons, List.map_nil, List.mem_cons,
            List.not_mem_nil, or_false]
          rintro rfl
          simp only [List.map_cons, List.nodup_cons] at hnodup
          exact hnodup.1 hkl)]
    simp

lemma pyDictOfPairs_eq_self {α : Type} (l : List (String × α))
    (hnodup : (l.map (·.1)).Nodup) : pyDictOfPairs l = l := by
  simpa using pyDictOfPairs_foldl l [] hnodup (by simp)

lemma lookup_cons_self {α : Type} (k : String) (v : α)
    (l : List (String × α)) : ((k, v) :: l).lookup k = some v := by
  simp [List.lookup]

lemma lookup_cons_ne {α : Type} (kv : String × α) (l : List (String × α))
    (k : String) (hk : k ≠ kv.1) : (kv :: l).lookup k = l.lookup k := by
  obtain ⟨k₁, v₁⟩ := kv
  have hb : (k == k₁) = false := beq_eq_false_iff_ne.mpr hk
  simp [List.lookup, hb]

lemma lookup_cons_fst {α : Type} (kv : String × α) (l : List (String × α)) :
    (kv :: l).lookup kv.1 = some kv.2 := by
  obtain ⟨a, b⟩ := kv
  exact lookup_cons_self a b l

lemma lookup_isSome_of_mem_keys {α : Type} (l : List (String × α))
    (k : String) (h : k ∈ l.map (·.1)) : ∃ v, l.lookup k = some v := by
  induction l with
  | nil => simp at h
  | cons kv l ih =>
    by_cases hk : k = kv.1
    · subst hk
      exact ⟨kv.2, by rw [show kv = (kv.1, kv.2) from rfl, lookup_cons_self]⟩
    · have hmem : k ∈ l.map (·.1) := by
        rcases List.mem_map.mp h with ⟨kv₂, hkv₂, rfl⟩
        rcases List.mem_cons.mp hkv₂ with rfl | h₂
        · exact absurd rfl hk
        · exact List.mem_map.mpr ⟨kv₂, h₂, rfl⟩
      rcases ih hmem with ⟨v, hv⟩
      exact ⟨v, by rw [lookup_cons_ne kv l k hk]; exact hv⟩

lemma lookup_of_mem_nodup {α : Type} (l : List (String × α)) (k : String)
    (v : α) (hnodup : (l.map (·.1)).Nodup) (h : (k, v) ∈ l) :
    l.lookup k = some v := by
  induction l with
  | nil => simp at h
  | cons kv l ih =>
    rcases List.mem_cons.mp h with heq | hmem
    · rw [← heq, lookup_cons_self]
    · have hk : k ≠ kv.1 := by
        intro he
        simp only [List.map_cons, List.nodup_cons] at hnodup
        exact hnodup.1 (he ▸ List.mem_map.mpr ⟨(k, v), hmem, rfl⟩)
      rw [lookup_cons_ne kv l k hk]
      exact ih (by simpa using hnodup.of_cons) hmem

lemma lookup_keyfun {α : Type} (ks : List String) (g : String → α)
    (k : String) (h : k ∈ ks) :
    (ks.map (fun k => (k, g k))).lookup k = some (g k) := by
  induction ks with
  | nil => simp at h
  | cons a ks ih =>
    by_cases hk : k = a
    · subst hk
      simp only [List.map_cons]
      exact lookup_cons_self k (g k) _
    · rcases List.mem_cons.mp h with rfl | hmem
      · exact absurd rfl hk
      · simp only [List.map_cons]
        rw [lookup_cons_ne (a, g a) _ k hk]
        exact ih hmem

lemma lookup_map_value {α β : Type} (l : List (String × α)) (f : α → β)
    (k : String) :
    (l.map (fun kv => (kv.1, f kv.2))).lookup k = (l.lookup k).map f := by
  induction l with
  | nil => rfl
  | cons kv l ih =>
    by_cases hk : k = kv.1
    · subst hk
      simp only [List.map_cons]
      rw [lookup_cons_self, show kv = (kv.1, kv.2) from rfl,
        lookup_cons_self]
      rfl
    · simp only [List.map_cons]
      rw [lookup_cons_ne (kv.1, f kv.2) _ k hk, lookup_cons_ne kv l k hk]
      exact ih

lemma mem_of_lookup {α : Type} (l : List (String × α)) (k : String) (v : α)
    (h : l.lookup k = some v) : (k, v) ∈ l := by
  induction l with
  | nil => simp [List.lookup] at h
  | cons kv l ih =>
    by_cases hk : k = kv.1
    · subst hk
      rw [show kv = (kv.1, kv.2) from rfl, lookup_cons_self] at h
      exact List.mem_cons.mpr (Or.inl (by simp [← Option.some_inj.mp h]))
    · rw [lookup_cons_ne kv l k hk] at h
      exact List.mem_cons.mpr (Or.inr (ih h))

lemma mapM_map_ok {α β γ : Type} (f : β → Except PyErr γ) (h : α → β)
    (g : α → γ) (l : List α) (hyp : ∀ x ∈ l, f (h x) = .ok (g x)) :
    (l.map h).mapM f = .ok (l.map g) := by
  induction l with
  | nil => rfl
  | cons x xs ih =>
    rw [List.map_cons, List.mapM_cons, hyp x (List.mem_cons_self _ _),
      ih (fun y hy => hyp y (List.mem_cons_of_mem _ hy))]
    rfl

lemma seg_data (k v : String) :
    (k ++ "=" ++ v).data = k.data ++ '=' :: v.data := by
  simp [data_append]

lemma pySplit_eq_pair (k v : String) (hk : '=' ∉ k.data)
    (hv : '=' ∉ v.data) : pySplit (k ++ "=" ++ v) "=" = [k, v] := by
  show (pySplitOnChar '=' (k ++ "=" ++ v).data).map
      (fun cs => (⟨cs⟩ : String)) = [k, v]
  rw [seg_data, pySplitOnChar_append '=' _ _ hk,
    pySplitOnChar_no_sep '=' _ hv]
  simp [mk_data]

/-- C5 (amended): for a non-empty combination dict with distinct axis
names, provided the parameter name, the axis names and the stringified
values are all free of the delimiter characters `,` and `=`, decoding the
encoded key reproduces the parameter and a dict Python-equal to the
stringified mapping (`from_key(make_key(param, d)) == (param, {k: str(v)
for k, v in d.items()})`). -/
theorem c5_roundtrip_amended (param : String) (d : List (String × PyVal))
    (hne : d ≠ []) (hnodup : (d.map (·.1)).Nodup)
    (hp1 : ',' ∉ param.data) (hp2 : '=' ∉ param.data)
    (hkv : ∀ kv ∈ d, (',' ∉ kv.1.data ∧ '=' ∉ kv.1.data) ∧
      ',' ∉ (pyStr kv.2).data ∧ '=' ∉ (pyStr kv.2).data) :
    ∃ pairs, fromKey (makeKey param d) = .ok (param, pairs) ∧
      pyDictEq pairs (d.map (fun kv => (kv.1, pyStr kv.2))) = true := by
  classical
  set gval : String → PyVal := fun k => (d.lookup k).getD (.str "") with hgval
  set segF : String → String := fun k => k ++ "=" ++ pyStr (gval k) with hsegF
  set ks : List String := List.insertionSort (· ≤ ·) (d.map (·.1)) with hks
  have hperm : ks.Perm (d.map (·.1)) := List.perm_insertionSort _ _
  have hksnodup : ks.Nodup := hperm.nodup_iff.mpr hnodup
  have hksne : ks ≠ [] := by
    intro h0
    have hlen := hperm.length_eq
    rw [h0] at hlen
    have : d.length = 0 := by simpa using hlen.symm
    exact hne (List.length_eq_zero.mp this)
  have hkeyfact : ∀ k ∈ ks, ∃ w, d.lookup k = some w ∧ (k, w) ∈ d := by
    intro k hk
    obtain ⟨w, hw⟩ :=
      lookup_isSome_of_mem_keys d k (hperm.subset hk)
    exact ⟨w, hw, mem_of_lookup d k w hw⟩
  have hgv : ∀ k ∈ ks, ∀ w, d.lookup k = some w → gval k = w := by
    intro k _ w hw
    simp [hgval, hw]
  have hkdelim : ∀ k ∈ ks, (',' ∉ k.data ∧ '=' ∉ k.data) ∧
      ',' ∉ (pyStr (gval k)).data ∧ '=' ∉ (pyStr (gval k)).data := by
    intro k hk
    obtain ⟨w, hw, hmem⟩ := hkeyfact k hk
    have := hkv (k, w) hmem
    rw [hgv k hk w hw]
    exact this
  -- splitting the assembled key on `,` recovers the head and segments
  have hsegcomma : ∀ seg ∈ ks.map segF, ',' ∉ seg.data := by
    intro seg hseg
    rcases List.mem_map.mp hseg with ⟨k, hk, rfl⟩
    obtain ⟨⟨hk1, _⟩, hv1, _⟩ := hkdelim k hk
    rw [hsegF]
    simp only [seg_data, List.mem_append, List.mem_cons]
    push_neg
    exact ⟨hk1, by simp, hv1⟩
  have hsegsne : ks.map segF ≠ [] := by
    simpa using hksne
  have hnp : ',' ∉ ("name=" ++ param).data := by
    rw [data_append]
    simp only [List.mem_append]
    push_neg
    exact ⟨by decide, hp1⟩
  have hsplitkey : pySplit (makeKey param d) "," =
      ("name=" ++ param) :: ks.map segF := by
    show (pySplitOnChar ',' (makeKey param d).data).map
        (fun cs => (⟨cs⟩ : String)) = _
    have hkeydata : (makeKey param d).data =
        ("name=" ++ param).data ++ ',' :: (pyJoin "," (ks.map segF)).data := by
      show ("name=" ++ param ++ "," ++ pyJoin ","
          (ks.map (fun k => k ++ "=" ++ pyStr ((d.lookup k).getD (.str ""))))).data = _
      rw [show ks.map (fun k => k ++ "=" ++ pyStr ((d.lookup k).getD (.str ""))) =
          ks.map segF from rfl]
      simp [data_append, List.append_assoc]
    rw [hkeydata, pySplitOnChar_append ',' _ _ hnp,
      pyJoin_comma_split _ hsegsne hsegcomma]
    rw [List.map_cons, mk_data, List.map_map,
      show ((fun cs => (⟨cs⟩ : String)) ∘ fun (s : String) => s.data) = id
        from funext mk_data,
      List.map_id]
  -- the head piece decodes to the parameter name
  have hparamsplit : pySplit ("name=" ++ param) "=" = ["name", param] := by
    show (pySplitOnChar '=' ("name=" ++ param).data).map
        (fun cs => (⟨cs⟩ : String)) = _
    rw [show ("name=" ++ param).data = "name".data ++ '=' :: param.data
        from rfl,
      pySplitOnChar_append '=' _ _ (by decide),
      pySplitOnChar_no_sep '=' _ hp2]
    simp [mk_data]
  -- each segment decodes to its pair
  have hsegdecode : ∀ k ∈ ks,
      (do
        let k₁ ← pyIndexStr (pySplit (segF k) "=") 0
        let v₁ ← pyIndexStr (pySplit (segF k) "=") 1
        pure (k₁, v₁) : Except PyErr (String × String)) =
        .ok (k, pyStr (gval k)) := by
    intro k hk
    obtain ⟨⟨_, hk2⟩, _, hv2⟩ := hkdelim k hk
    rw [hsegF]
    rw [pySplit_eq_pair k (pyStr (gval k)) hk2 hv2]
    rfl
  -- assemble `fromKey`
  refine ⟨ks.map (fun k => (k, pyStr (gval k))), ?_, ?_⟩
  · unfold fromKey
    rw [hsplitkey]
    show (do
      let paramName ← pyIndexStr (pySplit ("name=" ++ param) "=") 1
      let pairs ← (ks.map segF).mapM (fun c => do
        let k ← pyIndexStr (pySplit c "=") 0
        let v ← pyIndexStr (pySplit c "=") 1
        pure (k, v))
      pure (paramName, pyDictOfPairs pairs) :
        Except PyErr (String × List (String × String))) = _
    rw [hparamsplit]
    rw [mapM_map_ok _ segF (fun k => (k, pyStr (gval k))) ks hsegdecode]
    have hpairsnodup :
        ((ks.map (fun k => (k, pyStr (gval k)))).map (·.1)).Nodup := by
      rw [List.map_map,
        show ((fun (x : String × String) => x.1) ∘
            fun k => (k, pyStr (gval k))) = id from funext (fun k => rfl),
        List.map_id]
      exact hksnodup
    show Except.ok (param,
        pyDictOfPairs (ks.map (fun k => (k, pyStr (gval k))))) = _
    rw [pyDictOfPairs_eq_self _ hpairsnodup]
  · -- Python dict equality with the stringified original mapping
    rw [pyDictEq, Bool.and_eq_true, List.all_eq_true, List.all_eq_true]
    constructor
    · intro kv hkv₁
      rcases List.mem_map.mp hkv₁ with ⟨k, hk, rfl⟩
      obtain ⟨w, hw, _⟩ := hkeyfact k hk
      rw [lookup_map_value d pyStr k, hw, hgv k hk w hw]
      simp
    · intro kv hkv₁
      rcases List.mem_map.mp hkv₁ with ⟨⟨k, w⟩, hmem, rfl⟩
      have hkks : k ∈ ks := hperm.mem_iff.mpr
        (List.mem_map.mpr ⟨(k, w), hmem, rfl⟩)
      rw [lookup_keyfun ks (fun k => pyStr (gval k)) k hkks]
      have : gval k = w :=
        hgv k hkks w (lookup_of_mem_nodup d k w hnodup hmem)
      simp [this]

/-- C5 (counterexample): the round trip is not the identity for every
string-representable value: a value containing the delimiter `=` decodes to
a truncated value (`from_key(make_key("p", {"t": "1=2"}))` gives
`("p", {"t": "1"})`, not `("p", {"t": "1=2"})`). -/
theorem c5_counterexample :
    fromKey (makeKey "p" [("t", PyVal.str "1=2")]) =
      .ok ("p", [("t", "1")]) ∧
    pyDictEq [("t", "1")] [("t", pyStr (PyVal.str "1=2"))] = false := by
  constructor <;> rfl

/-- C5 witness: a delimiter-free two-axis mapping round-trips, the decoded
dict being Python-equal to the stringified original. -/
theorem c5_witness :
    ∃ pairs,
      fromKey (makeKey "tas" [("z", PyVal.int 10), ("t", PyVal.int 1)]) =
        .ok ("tas", pairs) ∧
      pyDictEq pairs ([("z", PyVal.int 10), ("t", PyVal.int 1)].map
        (fun kv => (kv.1, pyStr kv.2))) = true :=
  c5_roundtrip_amended "tas" [("z", PyVal.int 10), ("t", PyVal.int 1)]
    (by decide) (by decide) (by decide) (by decide) (by decide)

/-! ### Helper lemmas for the insertion index (C7) -/

lemma lookup_eq_none_of_not_mem {α : Type} (l : List (String × α))
    (k : String) (h : k ∉ l.map (·.1)) : l.lookup k = none := by
  induction l with
  | nil => rfl
  | cons kv l ih =>
    have hk : k ≠ kv.1 := by
      intro he
      exact h (List.mem_map.mpr ⟨kv, List.mem_cons_self _ _, he.symm⟩)
    rw [lookup_cons_ne kv l k hk]
    refine ih (fun hm => h ?_)
    rw [List.map_cons]
    exact List.mem_cons_of_mem _ hm

lemma findIdx?_of_any {α : Type} (p : α → Bool) (l : List α)
    (h : l.any p = true) : l.findIdx? p = some (l.findIdx p) := by
  induction l with
  | nil => simp at h
  | cons a l ih =>
    by_cases hp : p a
    · simp [List.findIdx?_cons, List.findIdx_cons, hp]
    · have hl : l.any p = true := by
        simpa [hp] using h
      simp [List.findIdx?_cons, List.findIdx_cons, hp, ih hl]

lemma pyListIndex_of_any (pts : List PyVal) (v : PyVal)
    (h : pts.any (fun x => pyEq x v) = true) :
    pyListIndex pts v = .ok (pyIdx pts v) := by
  rw [pyListIndex, findIdx?_of_any _ _ h]
  rfl

lemma map_set_findIdx (g : String → PySlice) (a : String) (x : PySlice) :
    ∀ (axisNames : List String), axisNames.Nodup → a ∈ axisNames →
    ∃ i, axisNames.findIdx? (fun s => s == a) = some i ∧
      (axisNames.map g).set i x =
        axisNames.map (fun ax => if ax = a then x else g ax) := by
  intro axisNames
  induction axisNames with
  | nil => intro _ ha; simp at ha
  | cons b rest ih =>
    intro hnodup ha
    by_cases hba : b = a
    · subst hba
      refine ⟨0, by simp [List.findIdx?_cons], ?_⟩
      simp only [List.map_cons, List.set_cons_zero, if_pos rfl]
      congr 1
      refine (List.map_congr_left ?_).symm
      intro ax hax
      have : ax ≠ b := by
        rintro rfl
        simp only [List.nodup_cons] at hnodup
        exact hnodup.1 hax
      rw [if_neg this]
    · have ha' : a ∈ rest := by
        rcases List.mem_cons.mp ha with rfl | h₂
        · exact absurd rfl hba
        · exact h₂
      obtain ⟨i, hi, hset⟩ := ih (by simpa using hnodup.of_cons) ha'
      refine ⟨i + 1, ?_, ?_⟩
      · have hb : (b == a) = false :=
          beq_eq_false_iff_ne.mpr hba
        simp [List.findIdx?_cons, hb, hi]
      · simp only [List.map_cons, List.set_cons_succ, hset,
          if_neg (fun he => hba he)]

/-- The `_build_indexer` loop invariant: folding the combination pairs over
an indices list of the form `axisNames.map g` produces `axisNames.map` of
the pointwise update. -/
lemma buildIndexer_fold (axisNames : List String)
    (coords : List (String × List PyVal)) :
    ∀ (cd : List (String × PyVal)) (g : String → PySlice),
    axisNames.Nodup → (cd.map (·.1)).Nodup →
    (∀ kv ∈ cd, kv.1 ∈ axisNames ∧ ∃ pts,
      coords.lookup kv.1 = some pts ∧
      pts.any (fun x => pyEq x kv.2) = true) →
    (cd.foldlM
      (fun indices kv => do
        let pts ←
          match coords.lookup kv.1 with
          | some pts => Except.ok pts
          | none => Except.error (PyErr.keyError kv.1)
        let dataIdx ← pyListIndex pts kv.2
        let axisIdx ←
          match axisNames.findIdx? (fun a => a == kv.1) with
          | some i => Except.ok i
          | none =>
            Except.error (PyErr.valueError ("'" ++ kv.1 ++ "' is not in list"))
        pure (indices.set axisIdx (PySlice.slice dataIdx (dataIdx + 1))))
      (axisNames.map g)) =
      .ok (axisNames.map (fun ax =>
        match cd.lookup ax with
        | some v => PySlice.slice (pyIdx ((coords.lookup ax).getD []) v)
            (pyIdx ((coords.lookup ax).getD []) v + 1)
        | none => g ax)) := by
  intro cd
  induction cd with
  | nil =>
    intro g _ _ _
    rfl
  | cons kv cd ih =>
    intro g hnodup hcdnodup hmem
    obtain ⟨hax, pts, hpts, hany⟩ := hmem kv (List.mem_cons_self _ _)
    obtain ⟨i, hi, hset⟩ := map_set_findIdx g kv.1
      (PySlice.slice (pyIdx pts kv.2) (pyIdx pts kv.2 + 1)) axisNames
      hnodup hax
    rw [List.foldlM_cons, hpts]
    simp only [Bind.bind, Except.bind]
    rw [pyListIndex_of_any pts kv.2 hany, hi]
    show List.foldlM _
      ((axisNames.map g).set i
        (PySlice.slice (pyIdx pts kv.2) (pyIdx pts kv.2 + 1))) cd = _
    rw [hset]
    have hrhs : (axisNames.map (fun ax =>
        match (kv :: cd).lookup ax with
        | some v => PySlice.slice (pyIdx ((coords.lookup ax).getD []) v)
            (pyIdx ((coords.lookup ax).getD []) v + 1)
        | none => g ax)) =
        axisNames.map (fun ax =>
          match cd.lookup ax with
          | some v => PySlice.slice (pyIdx ((coords.lookup ax).getD []) v)
              (pyIdx ((coords.lookup ax).getD []) v + 1)
          | none => (fun ax => if ax = kv.1 then
              PySlice.slice (pyIdx pts kv.2) (pyIdx pts kv.2 + 1)
            else g ax) ax) := by
      refine List.map_congr_left ?_
      intro ax _
      by_cases hx : ax = kv.1
      · subst hx
        have hnone : cd.lookup kv.1 = none := by
          refine lookup_eq_none_of_not_mem cd kv.1 ?_
          simp only [List.map_cons, List.nodup_cons] at hcdnodup
          exact hcdnodup.1
        rw [lookup_cons_fst kv cd, hnone]
        simp [hpts]
      · rw [lookup_cons_ne kv cd ax hx]
        rcases cd.lookup ax with _ | w
        · simp [hx]
        · rfl
    rw [hrhs]
    exact ih (fun ax => if ax = kv.1 then
        PySlice.slice (pyIdx pts kv.2) (pyIdx pts kv.2 + 1) else g ax)
      hnodup (by simpa using hcdnodup.of_cons)
      (fun kw hkw => hmem kw (List.mem_cons_of_mem _ hkw))

/-- C7: for every axis-order list (with distinct names), coordinate
arrays, and combination mapping (with distinct keys) whose every axis
appears in the order list and whose every value occurs in its axis's
coordinate array, `_build_indexer` returns one slice per axis in the given
order: the single-element slice `slice(i, i+1)` at the index of the chosen
value for each mapped axis, and the full-range slice for every axis absent
from the mapping. -/
theorem c7_build_insertion_index (axisNames : List String)
    (coords : List (String × List PyVal)) (cd : List (String × PyVal))
    (hnodup : axisNames.Nodup) (hcdnodup : (cd.map (·.1)).Nodup)
    (hmem : ∀ kv ∈ cd, kv.1 ∈ axisNames ∧ ∃ pts,
      coords.lookup kv.1 = some pts ∧
      pts.any (fun x => pyEq x kv.2) = true) :
    buildIndexer axisNames coords cd =
      .ok (axisNames.map (fun ax =>
        match cd.lookup ax with
        | some v => PySlice.slice (pyIdx ((coords.lookup ax).getD []) v)
            (pyIdx ((coords.lookup ax).getD []) v + 1)
        | none => PySlice.full)) :=
  buildIndexer_fold axisNames coords cd (fun _ => PySlice.full)
    hnodup hcdnodup hmem

/-- C7 witness: axis order `["t","y","x"]` with combination `{"t": 5}`
whose value sits at index 2 of the `t` coordinate array yields
`(slice(2,3), slice(None), slice(None))`. -/
theorem c7_witness :
    buildIndexer ["t", "y", "x"]
      [("t", [PyVal.int 1, PyVal.int 3, PyVal.int 5]),
        ("y", [PyVal.int 0]), ("x", [PyVal.int 0])]
      [("t", PyVal.int 5)] =
      .ok [PySlice.slice 2 3, PySlice.full, PySlice.full] :=
  (c7_build_insertion_index ["t", "y", "x"]
    [("t", [PyVal.int 1, PyVal.int 3, PyVal.int 5]),
      ("y", [PyVal.int 0]), ("x", [PyVal.int 0])]
    [("t", PyVal.int 5)] (by decide) (by decide)
    (by
      intro kv hkv
      rcases List.mem_cons.mp hkv with rfl | h
      · exact ⟨by decide, [PyVal.int 1, PyVal.int 3, PyVal.int 5],
          rfl, by decide⟩
      · simp at h)).trans rfl

/-! ### Helper lemmas for coordinate building (C8) -/

lemma contains_of_lookup {α : Type} (l : List (String × α)) (k : String)
    (v : α) (h : l.lookup k = some v) : (l.map (·.1)).contains k = true := by
  have hm : k ∈ l.map (·.1) :=
    List.mem_map.mpr ⟨(k, v), mem_of_lookup l k v h, rfl⟩
  exact List.elem_eq_true_of_mem hm

lemma buildCoords_single (ax : String) (desc : List (String × JVal))
    (pts : List PyVal)
    (h : (if (desc.map (·.1)).contains "start" then
        match buildCoordPoints desc with
        | .ok qs => Except.ok (qs.map PyVal.float)
        | .error e => Except.error e
      else if (desc.map (·.1)).contains "values" then
        match desc.lookup "values" with
        | some (.arr vs) => Except.ok vs
        | some _ => Except.error (.typeError "argument is not iterable")
        | none => Except.error (.keyError "values")
      else
        Except.error (PyErr.keyError
          ("Could not build coordinate from keys: '" ++
            pyJoin ", " (desc.map (·.1)) ++ "'."))) = .ok pts) :
    buildCoords [(ax, desc)] = .ok [(ax, pts)] := by
  unfold buildCoords
  rw [List.foldlM_cons]
  simp only [Bind.bind, Except.bind]
  by_cases h1 : (desc.map (·.1)).contains "start" = true
  · rw [if_pos h1] at h
    rw [if_pos h1]
    rcases hb : buildCoordPoints desc with e₁ | qs
    · rw [hb] at h
      exact absurd h (by simp)
    · rw [hb] at h
      have hpq : pts = qs.map PyVal.float := by simpa using h.symm
      rw [hpq]
      rfl
  · rw [if_neg h1] at h
    rw [if_neg h1]
    by_cases h2 : (desc.map (·.1)).contains "values" = true
    · rw [if_pos h2] at h
      rw [if_pos h2]
      rcases hv : desc.lookup "values" with _ | jv
      · rw [hv] at h
        exact absurd h (by simp)
      · rcases jv with m | q | vs | st
        · rw [hv] at h
          exact absurd h (by simp)
        · rw [hv] at h
          exact absurd h (by simp)
        · rw [hv] at h
          have hpv : pts = vs := by simpa using h.symm
          rw [hpv]
          rfl
        · rw [hv] at h
          exact absurd h (by simp)
    · rw [if_neg h2] at h
      exact absurd h (by simp)

lemma buildCoords_single_err (ax : String) (desc : List (String × JVal))
    (e : PyErr)
    (h : (if (desc.map (·.1)).contains "start" then
        match buildCoordPoints desc with
        | .ok qs => Except.ok (qs.map PyVal.float)
        | .error e => Except.error e
      else if (desc.map (·.1)).contains "values" then
        match desc.lookup "values" with
        | some (.arr vs) => Except.ok vs
        | some _ => Except.error (.typeError "argument is not iterable")
        | none => Except.error (.keyError "values")
      else
        Except.error (PyErr.keyError
          ("Could not build coordinate from keys: '" ++
            pyJoin ", " (desc.map (·.1)) ++ "'."))) = .error e) :
    buildCoords [(ax, desc)] = .error e := by
  unfold buildCoords
  rw [List.foldlM_cons]
  simp only [Bind.bind, Except.bind]
  by_cases h1 : (desc.map (·.1)).contains "start" = true
  · rw [if_pos h1] at h
    rw [if_pos h1]
    rcases hb : buildCoordPoints desc with e₁ | qs
    · rw [hb] at h
      have he : e₁ = e := by simpa using h
      rw [← he]
    · rw [hb] at h
      exact absurd h (by simp)
  · rw [if_neg h1] at h
    rw [if_neg h1]
    by_cases h2 : (desc.map (·.1)).contains "values" = true
    · rw [if_pos h2] at h
      rw [if_pos h2]
      rcases hv : desc.lookup "values" with _ | jv
      · rw [hv] at h
        have he : PyErr.keyError "values" = e := by simpa using h
        rw [← he]
      · rcases jv with m | q | vs | st
        · rw [hv] at h
          have he : PyErr.typeError "argument is not iterable" = e := by
            simpa using h
          rw [← he]
        · rw [hv] at h
          have he : PyErr.typeError "argument is not iterable" = e := by
            simpa using h
          rw [← he]
        · rw [hv] at h
          exact absurd h (by simp)
        · rw [hv] at h
          have he : PyErr.typeError "argument is not iterable" = e := by
            simpa using h
          rw [← he]
    · rw [if_neg h2] at h
      have he : PyErr.keyError
          ("Could not build coordinate from keys: '" ++
            pyJoin ", " (desc.map (·.1)) ++ "'.") = e := by
        simpa using h
      rw [if_neg h2, ← he]

/-- C8: `_build_coords` maps an axis whose description carries
`start`/`stop`/`num` (with `num ≥ 2`) to exactly `num` evenly spaced
points inclusive of both endpoints (`i`-th point
`start + i*(stop-start)/(num-1)`; the first is `start`, the last is
`stop`); maps an axis whose description carries a `values` list to that
list verbatim; and fails with a `KeyError` naming the axis description's
keys for any description with neither. -/
theorem c8_build_coordinates :
    (∀ (ax : String) (desc : List (String × JVal)) (sv ev : JVal)
      (s e : ℚ) (n : Int),
      desc.lookup "start" = some sv → jNum sv = .ok s →
      desc.lookup "stop" = some ev → jNum ev = .ok e →
      desc.lookup "num" = some (.int n) → 2 ≤ n →
      ∃ pts : List ℚ,
        buildCoords [(ax, desc)] = .ok [(ax, pts.map PyVal.float)] ∧
        pts.length = n.toNat ∧
        (∀ i : Nat, i < n.toNat →
          pts[i]? = some (s + (i : ℚ) * ((e - s) / ((n : ℚ) - 1)))) ∧
        pts.head? = some s ∧ pts.getLast? = some e) ∧
    (∀ (ax : String) (desc : List (String × JVal)) (vs : List PyVal),
      (desc.map (·.1)).contains "start" = false →
      desc.lookup "values" = some (.arr vs) →
      buildCoords [(ax, desc)] = .ok [(ax, vs)]) ∧
    (∀ (ax : String) (desc : List (String × JVal)),
      (desc.map (·.1)).contains "start" = false →
      (desc.map (·.1)).contains "values" = false →
      buildCoords [(ax, desc)] = .error (.keyError
        ("Could not build coordinate from keys: '" ++
          pyJoin ", " (desc.map (·.1)) ++ "'."))) := by
  refine ⟨?_, ?_, ?_⟩
  · intro ax desc sv ev s e n hsv hs hev he hn h2
    have hnq : ((n : ℚ) - 1) ≠ 0 := by
      have h2q : (2 : ℚ) ≤ (n : ℚ) := by exact_mod_cast h2
      linarith
    set pts : List ℚ := (List.range n.toNat).map
      (fun (i : Nat) => s + (i : ℚ) * ((e - s) / ((n : ℚ) - 1))) with hpts
    have hget : ∀ i : Nat, i < n.toNat →
        pts[i]? = some (s + (i : ℚ) * ((e - s) / ((n : ℚ) - 1))) := by
      intro i hi
      rw [hpts]
      simp [List.getElem?_map, List.getElem?_range, hi]
    have hlen : pts.length = n.toNat := by
      rw [hpts]
      simp
    have hlin : npLinspace s e n = .ok pts := by
      unfold npLinspace
      rw [if_neg (by omega)]
      congr 1
      rw [hpts]
      refine List.map_congr_left ?_
      intro i hi
      by_cases hlast : (i : Int) = n - 1
      · rw [if_pos ⟨by omega, beq_iff_eq.mpr hlast⟩]
        have hiq : (i : ℚ) = (n : ℚ) - 1 := by
          have : ((i : Int) : ℚ) = ((n - 1 : Int) : ℚ) := by
            exact_mod_cast congrArg (fun z : Int => (z : ℚ)) hlast
          push_cast at this
          linarith
        rw [hiq]
        field_simp
      · rw [if_neg (by
          rintro ⟨-, hbeq⟩
          exact hlast (beq_iff_eq.mp hbeq))]
    have hbcp : buildCoordPoints desc = .ok pts := by
      unfold buildCoordPoints jGet
      rw [hsv, hev, hn]
      simp only [Bind.bind, Except.bind, hs, he]
      exact hlin
    refine ⟨pts, ?_, hlen, hget, ?_, ?_⟩
    · refine buildCoords_single ax desc (pts.map PyVal.float) ?_
      rw [if_pos (contains_of_lookup desc "start" sv hsv), hbcp]
    · have h0 := hget 0 (by omega)
      have hv0 : s + ((0 : Nat) : ℚ) * ((e - s) / ((n : ℚ) - 1)) = s := by
        push_cast
        ring
      rw [hv0] at h0
      rcases hp : pts with _ | ⟨p, rest⟩
      · rw [hp] at h0
        simp at h0
      · rw [hp] at h0
        simp only [List.getElem?_cons_zero] at h0
        simp [h0]
    · have hidx : n.toNat - 1 < n.toNat := by omega
      have hl := hget (n.toNat - 1) hidx
      have hiq : ((n.toNat - 1 : Nat) : ℚ) = (n : ℚ) - 1 := by
        have hz : ((n.toNat - 1 : Nat) : Int) = n - 1 := by omega
        have : (((n.toNat - 1 : Nat) : Int) : ℚ) = ((n - 1 : Int) : ℚ) := by
          exact_mod_cast congrArg (fun z : Int => (z : ℚ)) hz
        push_cast at this
        linarith
      have hval : s + ((n.toNat - 1 : Nat) : ℚ) * ((e - s) / ((n : ℚ) - 1)) =
          e := by
        rw [hiq]
        field_simp
      rw [hval] at hl
      rw [List.getLast?_eq_getElem?, hlen]
      exact hl
  · intro ax desc vs hnostart hvals
    refine buildCoords_single ax desc vs ?_
    rw [if_neg (by rw [hnostart]; simp),
      if_pos (contains_of_lookup desc "values" (.arr vs) hvals), hvals]
  · intro ax desc hnostart hnovals
    refine buildCoords_single_err ax desc _ ?_
    rw [if_neg (by rw [hnostart]; simp),
      if_neg (by rw [hnovals]; simp)]

/-- C8 witness: `{"z": {"start": 0, "stop": 100, "num": 5}}` yields five
evenly spaced points from 0 to 100 (i.e. `[0, 25, 50, 75, 100]`); a
`values` description is used verbatim; a description with neither key
fails naming its keys. -/
theorem c8_witness :
    (∃ pts : List ℚ,
      buildCoords [("z", [("start", JVal.int 0), ("stop", JVal.int 100),
          ("num", JVal.int 5)])] = .ok [("z", pts.map PyVal.float)] ∧
      pts.length = (5 : Int).toNat ∧
      (∀ i : Nat, i < (5 : Int).toNat →
        pts[i]? = some ((0 : ℚ) + (i : ℚ) *
          (((100 : ℚ) - (0 : ℚ)) / (((5 : Int) : ℚ) - 1)))) ∧
      pts.head? = some 0 ∧ pts.getLast? = some 100) ∧
    buildCoords [("e", [("values", JVal.arr [PyVal.int 3, PyVal.int 1])])] =
      .ok [("e", [PyVal.int 3, PyVal.int 1])] ∧
    buildCoords [("q", [("foo", JVal.int 1), ("bar", JVal.int 2)])] =
      .error (.keyError "Could not build coordinate from keys: 'foo, bar'.") :=
  ⟨c8_build_coordinates.1 "z"
      [("start", JVal.int 0), ("stop", JVal.int 100), ("num", JVal.int 5)]
      (JVal.int 0) (JVal.int 100) 0 100 5 rfl rfl rfl rfl rfl (by omega),
    c8_build_coordinates.2.1 "e"
      [("values", JVal.arr [PyVal.int 3, PyVal.int 1])]
      [PyVal.int 3, PyVal.int 1] rfl rfl,
    c8_build_coordinates.2.2 "q"
      [("foo", JVal.int 1), ("bar", JVal.int 2)] rfl rfl⟩

/-! ### Helper lemmas for the fetch cache (C6, C10) -/

lemma lookup_map_overwrite {α : Type} (d : List (String × α)) (k : String)
    (v : α) (h : d.any (fun kv => kv.1 == k) = true) :
    (d.map (fun kv => if kv.1 == k then (k, v) else kv)).lookup k = some v := by
  induction d with
  | nil => simp at h
  | cons kv d ih =>
    by_cases hk : (kv.1 == k) = true
    · simp only [List.map_cons, if_pos hk]
      exact lookup_cons_self k v _
    · simp only [List.map_cons, if_neg hk]
      have hne : k ≠ kv.1 := fun he =>
        hk (beq_iff_eq.mpr he.symm)
      rw [lookup_cons_ne kv _ k hne]
      refine ih ?_
      simpa [hk] using h

lemma lookup_append_right {α : Type} (d l : List (String × α)) (k : String)
    (h : d.lookup k = none) : (d ++ l).lookup k = l.lookup k := by
  induction d with
  | nil => rfl
  | cons kv d ih =>
    have hne : k ≠ kv.1 := by
      intro he
      rw [he, lookup_cons_fst kv d] at h
      exact Option.noConfusion h
    rw [List.cons_append, lookup_cons_ne kv _ k hne]
    refine ih ?_
    rw [lookup_cons_ne kv d k hne] at h
    exact h

lemma lookup_pyDictInsert {α : Type} (d : List (String × α)) (k : String)
    (v : α) : (pyDictInsert d k v).lookup k = some v := by
  unfold pyDictInsert
  by_cases hany : d.any (fun kv => kv.1 == k) = true
  · rw [if_pos hany]
    exact lookup_map_overwrite d k v hany
  · rw [if_neg hany]
    have hnone : d.lookup k = none := by
      refine lookup_eq_none_of_not_mem d k ?_
      intro hmem
      rcases List.mem_map.mp hmem with ⟨kv, hkv, rfl⟩
      refine hany ?_
      rw [List.any_eq_true]
      exact ⟨kv, hkv, beq_iff_eq.mpr rfl⟩
    rw [lookup_append_right d _ k hnone]
    exact lookup_cons_self k v []

lemma requestData_ok {β : Type} (co : Collaborators β) (dh : DHData β)
    (uf : String → List (String × Nat) → String) (param : String)
    (cd : List (String × PyVal)) (s : DHState β) (pinfo : RangeInfo)
    (tmpl : List (String × Nat)) (arr : β) (sc : Option Int)
    (hrange : dh.ranges.lookup param = some pinfo)
    (htype : pinfo.ptype = "TiledNdArray")
    (htmpl : templateBuild dh.coords cd = .ok tmpl)
    (hreq : co.getRequest (uf pinfo.urlTemplate tmpl) =
      ⟨some arr, sc, none⟩) :
    requestData co dh uf param cd s =
      (.ok (some arr), ⟨s.cache, none, s.fetchCount + 1⟩) := by
  simp only [requestData, hrange, htmpl, hreq, htype]
  rfl

lemma requestData_fail {β : Type} (co : Collaborators β) (dh : DHData β)
    (uf : String → List (String × Nat) → String) (param : String)
    (cd : List (String × PyVal)) (s : DHState β) (pinfo : RangeInfo)
    (tmpl : List (String × Nat)) (sc : Option Int) (m : String)
    (hrange : dh.ranges.lookup param = some pinfo)
    (htmpl : templateBuild dh.coords cd = .ok tmpl)
    (hreq : co.getRequest (uf pinfo.urlTemplate tmpl) = ⟨none, sc, some m⟩) :
    requestData co dh uf param cd s =
      (.ok none,
        ⟨s.cache, some (m ++ statusSuffix sc), s.fetchCount + 1⟩) := by
  simp only [requestData, hrange, htmpl, hreq]

lemma getItem_first_ok {β : Type} (co : Collaborators β) (dh : DHData β)
    (uf : String → List (String × Nat) → String) (param : String)
    (cd : List (String × PyVal)) (dataset : Bool) (s : DHState β)
    (pinfo : RangeInfo) (tmpl : List (String × Nat)) (arr : β)
    (sc : Option Int)
    (harr : dh.arrayData.lookup param = none)
    (hfresh : s.cache.lookup (makeKey param cd) = none)
    (hrange : dh.ranges.lookup param = some pinfo)
    (htype : pinfo.ptype = "TiledNdArray")
    (htmpl : templateBuild dh.coords cd = .ok tmpl)
    (hreq : co.getRequest (uf pinfo.urlTemplate tmpl) =
      ⟨some arr, sc, none⟩) :
    getItem co dh uf param cd dataset s =
      ((if dataset then
          match co.buildGV (some arr) param with
          | .error e => Except.error e
          | .ok ds => Except.ok (some ds)
        else Except.ok (some arr)),
        ⟨pyDictInsert s.cache (makeKey param cd) (some arr), none,
          s.fetchCount + 1⟩) := by
  have hrd := requestData_ok co dh uf param cd s pinfo tmpl arr sc
    hrange htype htmpl hreq
  simp only [getItem, harr, hfresh, hrd]
  cases dataset with
  | false => rfl
  | true =>
    rcases co.buildGV (some arr) param with e | ds <;> rfl

lemma getItem_cached_ok {β : Type} (co : Collaborators β) (dh : DHData β)
    (uf : String → List (String × Nat) → String) (param : String)
    (cd : List (String × PyVal)) (dataset : Bool) (s : DHState β) (arr : β)
    (harr : dh.arrayData.lookup param = none)
    (hhit : s.cache.lookup (makeKey param cd) = some (some arr)) :
    getItem co dh uf param cd dataset s =
      ((if dataset then
          match co.buildGV (some arr) param with
          | .error e => Except.error e
          | .ok ds => Except.ok (some ds)
        else Except.ok (some arr)), s) := by
  simp only [getItem, harr, hhit]
  cases dataset with
  | false => rfl
  | true =>
    rcases co.buildGV (some arr) param with e | ds <;> rfl

lemma getItem_first_fail {β : Type} (co : Collaborators β) (dh : DHData β)
    (uf : String → List (String × Nat) → String) (param : String)
    (cd : List (String × PyVal)) (dataset : Bool) (s : DHState β)
    (pinfo : RangeInfo) (tmpl : List (String × Nat)) (sc : Option Int)
    (m : String)
    (harr : dh.arrayData.lookup param = none)
    (hnohit : s.cache.lookup (makeKey param cd) = none ∨
      s.cache.lookup (makeKey param cd) = some none)
    (hrange : dh.ranges.lookup param = some pinfo)
    (htmpl : templateBuild dh.coords cd = .ok tmpl)
    (hreq : co.getRequest (uf pinfo.urlTemplate tmpl) = ⟨none, sc, some m⟩) :
    getItem co dh uf param cd dataset s =
      ((if dataset then
          match co.buildGV none param with
          | .error e => Except.error e
          | .ok ds => Except.ok (some ds)
        else Except.ok none),
        ⟨pyDictInsert s.cache (makeKey param cd) none,
          some (m ++ statusSuffix sc), s.fetchCount + 1⟩) := by
  have hrd := requestData_fail co dh uf param cd s pinfo tmpl sc m
    hrange htmpl hreq
  rcases hnohit with hmiss | hmiss <;>
  · simp only [getItem, harr, hmiss, hrd]
    cases dataset with
    | false => rfl
    | true => rcases co.buildGV none param with e | ds <;> rfl

/-- C6: within one session, for a combination not yet in the cache (and not
served from inline data), a successful fetch means the second `get_item`
for the same combination is a cache hit — exactly one underlying
`get_request` happens, the two calls agree, and the second call leaves the
state unchanged.  A failing fetch stores only a `None` entry, which the
`cache.get(key) is not None` test treats as absent, so the second call
fetches again (two `get_request` calls, no negative caching). -/
theorem c6_fetch_cache {β : Type} (co : Collaborators β) (dh : DHData β)
    (uf : String → List (String × Nat) → String) (param : String)
    (cd : List (String × PyVal)) (dataset : Bool) (s0 : DHState β)
    (pinfo : RangeInfo) (tmpl : List (String × Nat))
    (harr : dh.arrayData.lookup param = none)
    (hfresh : s0.cache.lookup (makeKey param cd) = none)
    (hrange : dh.ranges.lookup param = some pinfo)
    (htype : pinfo.ptype = "TiledNdArray")
    (htmpl : templateBuild dh.coords cd = .ok tmpl) :
    (∀ (arr : β) (sc : Option Int),
      co.getRequest (uf pinfo.urlTemplate tmpl) = ⟨some arr, sc, none⟩ →
      (getItemTwice co dh uf param cd dataset s0).2.2.fetchCount =
          s0.fetchCount + 1 ∧
        (getItemTwice co dh uf param cd dataset s0).1 =
          (getItemTwice co dh uf param cd dataset s0).2.1) ∧
    (∀ (sc : Option Int) (m : String),
      co.getRequest (uf pinfo.urlTemplate tmpl) = ⟨none, sc, some m⟩ →
      (getItemTwice co dh uf param cd dataset s0).2.2.fetchCount =
          s0.fetchCount + 2 ∧
        (getItem co dh uf param cd dataset s0).2.cache.lookup
          (makeKey param cd) = some none) := by
  constructor
  · intro arr sc hreq
    have h1 := getItem_first_ok co dh uf param cd dataset s0 pinfo tmpl
      arr sc harr hfresh hrange htype htmpl hreq
    have hhit : (⟨pyDictInsert s0.cache (makeKey param cd) (some arr), none,
        s0.fetchCount + 1⟩ : DHState β).cache.lookup (makeKey param cd) =
        some (some arr) :=
      lookup_pyDictInsert s0.cache (makeKey param cd) (some arr)
    have h2 := getItem_cached_ok co dh uf param cd dataset
      ⟨pyDictInsert s0.cache (makeKey param cd) (some arr), none,
        s0.fetchCount + 1⟩ arr harr hhit
    constructor
    · simp only [getItemTwice, h1, h2]
    · simp only [getItemTwice, h1, h2]
  · intro sc m hreq
    have h1 := getItem_first_fail co dh uf param cd dataset s0 pinfo tmpl
      sc m harr (Or.inl hfresh) hrange htmpl hreq
    have hmiss2 : (⟨pyDictInsert s0.cache (makeKey param cd) none,
        some (m ++ statusSuffix sc), s0.fetchCount + 1⟩ :
          DHState β).cache.lookup (makeKey param cd) = some none :=
      lookup_pyDictInsert s0.cache (makeKey param cd) none
    have h2 := getItem_first_fail co dh uf param cd dataset
      ⟨pyDictInsert s0.cache (makeKey param cd) none,
        some (m ++ statusSuffix sc), s0.fetchCount + 1⟩ pinfo tmpl
      sc m harr (Or.inr hmiss2) hrange htmpl hreq
    constructor
    · simp only [getItemTwice, h1, h2]
    · simp only [h1]
      exact hmiss2

/-- C10: for every string key that `from_key` decodes, `__getitem__` never
propagates an exception from the retrieval step: an exception inside
`get_item` is caught, its message is stored in `errors` and `None` is
returned; and a non-raising retrieval still returns `None` whenever
`errors` is set afterwards, else the retrieved value. -/
theorem c10_getitem_never_raises {β : Type} (co : Collaborators β)
    (dh : DHData β) (uf : String → List (String × Nat) → String)
    (k : String) (param : String) (cd : List (String × String))
    (s : DHState β) (hk : fromKey k = .ok (param, cd)) :
    ∃ r s', dunderGetitem co dh uf (.str k) s = (.ok r, s') ∧
      ((∃ e st, getItem co dh uf param
          (cd.map (fun kv => (kv.1, PyVal.str kv.2))) true s =
            (.error e, st) ∧
          r = none ∧ s' = { st with errors := some (pyErrMsg e) }) ∨
        (∃ v st, getItem co dh uf param
          (cd.map (fun kv => (kv.1, PyVal.str kv.2))) true s = (.ok v, st) ∧
          st.errors = none ∧ r = v ∧ s' = st) ∨
        (∃ v st msg, getItem co dh uf param
          (cd.map (fun kv => (kv.1, PyVal.str kv.2))) true s = (.ok v, st) ∧
          st.errors = some msg ∧ r = none ∧ s' = st)) := by
  rcases hg : getItem co dh uf param
      (cd.map (fun kv => (kv.1, PyVal.str kv.2))) true s with ⟨res, st⟩
  cases res with
  | error e =>
    refine ⟨none, { st with errors := some (pyErrMsg e) }, ?_,
      Or.inl ⟨e, st, hg, rfl, rfl⟩⟩
    simp only [dunderGetitem, hk, hg]
  | ok v =>
    cases herr : st.errors with
    | none =>
      refine ⟨v, st, ?_, Or.inr (Or.inl ⟨v, st, hg, herr, rfl, rfl⟩)⟩
      simp only [dunderGetitem, hk, hg, herr]
      rfl
    | some msg =>
      refine ⟨none, st, ?_, Or.inr (Or.inr ⟨v, st, msg, hg, herr, rfl, rfl⟩)⟩
      simp only [dunderGetitem, hk, hg, herr]
      rfl

/-! ### Concrete collaborator instances for the cache witnesses -/

/-- A collaborator whose server always answers with the array `7`. -/
def coOk : Collaborators Nat where
  getRequest := fun _ => ⟨some 7, some 200, none⟩
  buildGV := fun o _ =>
    match o with
    | some b => .ok b
    | none => .error (.typeError "cannot build a dataset from None")
  indexSqueeze := fun a _ => a

/-- A collaborator whose server always fails. -/
def coFail : Collaborators Nat where
  getRequest := fun _ => ⟨none, none, some "ConnectionError"⟩
  buildGV := fun o _ =>
    match o with
    | some b => .ok b
    | none => .error (.typeError "cannot build a dataset from None")
  indexSqueeze := fun a _ => a

/-- A one-parameter, one-axis handler data set. -/
def dhW : DHData Nat where
  ranges := [("p", ⟨"TiledNdArray", "template", ["t"]⟩)]
  coords := [("t", [PyVal.int 1, PyVal.int 2])]
  arrayData := []

/-- A trivial URL formatter. -/
def ufW : String → List (String × Nat) → String := fun t _ => t

/-- C6 witness: against the always-succeeding server, two `get_item` calls
for the same combination make exactly one request; against the
always-failing server, the second call re-fetches (two requests). -/
theorem c6_witness :
    (getItemTwice coOk dhW ufW "p" [("t", PyVal.int 2)] false
      ⟨[], none, 0⟩).2.2.fetchCount = 1 ∧
    (getItemTwice coFail dhW ufW "p" [("t", PyVal.int 2)] false
      ⟨[], none, 0⟩).2.2.fetchCount = 2 :=
  ⟨((c6_fetch_cache coOk dhW ufW "p" [("t", PyVal.int 2)] false ⟨[], none, 0⟩
      ⟨"TiledNdArray", "template", ["t"]⟩ [("t", 1)]
      rfl rfl rfl rfl rfl).1 7 (some 200) rfl).1,
    ((c6_fetch_cache coFail dhW ufW "p" [("t", PyVal.int 2)] false
      ⟨[], none, 0⟩ ⟨"TiledNdArray", "template", ["t"]⟩ [("t", 1)]
      rfl rfl rfl rfl rfl).2 none "ConnectionError" rfl).1⟩

/-- C10 witness: the decodable key `"name=p,t=2"` is retrieved without any
propagated exception. -/
theorem c10_witness :
    ∃ r s', dunderGetitem coOk dhW ufW (.str "name=p,t=2")
        (⟨[], none, 0⟩ : DHState Nat) = (.ok r, s') ∧
      ((∃ e st, getItem coOk dhW ufW "p"
          ([("t", "2")].map (fun kv => (kv.1, PyVal.str kv.2))) true
            ⟨[], none, 0⟩ = (.error e, st) ∧
          r = none ∧ s' = { st with errors := some (pyErrMsg e) }) ∨
        (∃ v st, getItem coOk dhW ufW "p"
          ([("t", "2")].map (fun kv => (kv.1, PyVal.str kv.2))) true
            ⟨[], none, 0⟩ = (.ok v, st) ∧
          st.errors = none ∧ r = v ∧ s' = st) ∨
        (∃ v st msg, getItem coOk dhW ufW "p"
          ([("t", "2")].map (fun kv => (kv.1, PyVal.str kv.2))) true
            ⟨[], none, 0⟩ = (.ok v, st) ∧
          st.errors = some msg ∧ r = none ∧ s' = st)) :=
  c10_getitem_never_raises coOk dhW ufW "name=p,t=2" "p" [("t", "2")]
    ⟨[], none, 0⟩ rfl

end EdrExplorer
